import Mathlib

/-!
# Fonzie faucet

A shallow embedding of the faucet's rate-limit check (`main.go`), its per-chain
batching worker (`wallet_manager.go`) and its receipt store (`db/firebase_db.go`),
followed by the properties established for them.

Conventions of the embedding:

* instants (`time.Time`) and durations (`time.Duration`) are integers counting
  nanoseconds; `time.Duration` is a signed 64-bit integer, so the operations that
  can overflow in Go (`Time.Sub`, `Duration.Round`) clamp or wrap explicitly;
* every call of an external service (the chain client, Discord, Firestore, the
  HTTP response writer) is recorded as an `Effect` in a trace, and the answers of
  those services are read from an `Env`;
* `time.Now()` is a stream of readings `Env.clock`, consumed one reading per call.
-/

namespace Fonzie

/-! ## Go standard library: `time` -/

/-- An instant, in nanoseconds since the Unix epoch (`time.Time`). -/
abbrev Time := Int

/-- A span of time in nanoseconds (`time.Duration`, an `int64`). -/
abbrev Duration := Int

/-- Smallest `time.Duration`. -/
def minDuration : Duration := -(2 ^ 63)

/-- Largest `time.Duration`. -/
def maxDuration : Duration := 2 ^ 63 - 1

/-- One second, `time.Second`. -/
def Second : Duration := 1000000000

/-- One hour, `time.Hour`. -/
def Hour : Duration := 3600 * Second

/-- Two's complement reading of an integer as an `int64`. -/
def wrapInt64 (x : Int) : Int := (x + 2 ^ 63) % 2 ^ 64 - 2 ^ 63

/-- Conversion `uint64(x)` of an `int64`. -/
def toUint64 (x : Int) : Int := x % 2 ^ 64

/-- Instant `t.Add(d)`. -/
def timeAdd (t : Time) (d : Duration) : Time := t + d

/-- Test `t.After(u)`. -/
def timeAfter (t u : Time) : Bool := decide (u < t)

/-- Duration `t.Sub(u)`: the difference, clamped to the range of `time.Duration`. -/
def timeSub (t u : Time) : Duration :=
  if t - u < minDuration then minDuration
  else if maxDuration < t - u then maxDuration
  else t - u

/-- Duration `time.Until(t)` when the clock reads `now`. -/
def timeUntil (t now : Time) : Duration := timeSub t now

/-- Helper `lessThanHalf(x, y)` of Go's `time` package: `uint64(x)+uint64(x) < uint64(y)`. -/
def lessThanHalf (x y : Duration) : Bool :=
  decide ((toUint64 x + toUint64 x) % 2 ^ 64 < toUint64 y)

/-- Go's `Duration.Round`: `d` rounded to the nearest multiple of `m`, halfway values
away from zero, saturating when the result does not fit. -/
def Round (d m : Duration) : Duration :=
  if m ≤ 0 then d
  else
    let r := Int.tmod d m
    if d < 0 then
      let r := -r
      if lessThanHalf r m then wrapInt64 (d + r)
      else
        let d1 := wrapInt64 (d - m + r)
        if d1 < d then d1 else minDuration
    else
      if lessThanHalf r m then wrapInt64 (d - r)
      else
        let d1 := wrapInt64 (d + m - r)
        if d < d1 then d1 else maxDuration

/-! ## Go standard library: `strings` -/

/-- Go's `strings.Compare`: lexicographic order of the two strings. -/
def stringsCompare (a b : String) : Ordering :=
  if a.data < b.data then Ordering.lt
  else if a = b then Ordering.eq
  else Ordering.gt

/-! ## cosmos-sdk `types`: coins -/

/-- An amount of one denomination (`types.Coin`). -/
structure Coin where
  Denom : String
  Amount : Int
  deriving DecidableEq

/-- A set of coins, kept sorted by denomination (`types.Coins`). -/
abbrev Coins := List Coin

/-- An account address: its raw bytes (`types.AccAddress`). -/
abbrev AccAddress := List Nat

/-- Test `coin.IsZero()`. -/
def Coin.IsZero (c : Coin) : Bool := decide (c.Amount = 0)

/-- Helper `removeZeroCoins` of the coin library. -/
def removeZeroCoins (cs : Coins) : Coins := cs.filter (fun c => !c.IsZero)

/-- Inner loop of `safeAdd` once the first coin set is known to start with `coinA`:
walks the second coin set; `next` continues with the coins after `coinA`. -/
def safeAddFrom (coinA : Coin) (restA : Coins) (next : Coins → Coins) : Coins → Coins
  | [] => removeZeroCoins (coinA :: restA)
  | coinB :: restB =>
    match stringsCompare coinA.Denom coinB.Denom with
    | Ordering.lt =>
      if coinA.IsZero then next (coinB :: restB) else coinA :: next (coinB :: restB)
    | Ordering.eq =>
      if Coin.IsZero { Denom := coinA.Denom, Amount := coinA.Amount + coinB.Amount }
      then next restB
      else { Denom := coinA.Denom, Amount := coinA.Amount + coinB.Amount } :: next restB
    | Ordering.gt =>
      if coinB.IsZero then safeAddFrom coinA restA next restB
      else coinB :: safeAddFrom coinA restA next restB

/-- The coin library's `Coins.Add` (`safeAdd`): one pass over the two sorted coin
sets, adding the amounts of a denomination present in both and leaving out every
coin whose amount is zero. -/
def safeAdd : Coins → Coins → Coins
  | [] => removeZeroCoins
  | coinA :: restA => safeAddFrom coinA restA (safeAdd restA)

/-- Total amount of denomination `d` held in `cs` (`Coins.AmountOf` on a coin set
with one entry per denomination). -/
def amountOf (cs : Coins) (d : String) : Int :=
  ((cs.filter (fun c => decide (c.Denom = d))).map Coin.Amount).sum

/-! ## Discord, errors and effects -/

/-- A Discord user (`discordgo.User`), as far as the faucet reads it. -/
structure User where
  ID : String
  Bot : Bool
  deriving DecidableEq

/-- A Discord session (`discordgo.Session`): the identity `s.State.User.ID` of the
bot itself. -/
structure Session where
  StateUserID : String
  deriving DecidableEq

/-- A received Discord message (`discordgo.MessageCreate`). -/
structure MessageCreate where
  ID : String
  ChannelID : String
  GuildID : String
  Content : String
  Author : User
  deriving DecidableEq

/-- Go `error` values met by the faucet. -/
inductive Error where
  /-- An error returned by an external library or service. -/
  | ext (msg : String)
  /-- Value `fmt.Errorf("%s chain prefix is not supported", p)`. -/
  | notSupported (p : String)
  /-- Value `fmt.Errorf("you must wait %v until you can get %s funding again", wait, p)`. -/
  | mustWait (wait : Duration) (p : String)
  /-- Value `fmt.Errorf("malformed destination address, err: %w", cause)`. -/
  | malformed (cause : Error)
  deriving DecidableEq

/-- Texts the faucet sends to Discord. -/
inductive Text where
  /-- Text "Dispensed `coins` to `recipient`". -/
  | dispensed (coins : Coins) (recipient : AccAddress)
  /-- Text "`<@author>`, there is an error in your request: `err`". -/
  | requestError (author : String) (err : Error)
  /-- The help text, listing the supported address prefixes. -/
  | help (prefixes : List String)
  deriving DecidableEq

/-- Messages passed to `httpError`. -/
inductive HttpMsg where
  /-- Message "wallet is required". -/
  | walletRequired
  /-- Message `p + " is not supported: " + err.Error()`. -/
  | notSupported (p : String) (err : Error)
  /-- Message `"parsing coins: " + err.Error()`. -/
  | parsingCoins (err : Error)
  /-- Message `"parsing fees: " + err.Error()`. -/
  | parsingFees (err : Error)
  /-- Message `err.Error()`. -/
  | plain (err : Error)
  /-- Message `"malformed destination address: " + err.Error()`. -/
  | malformed (err : Error)
  deriving DecidableEq

/-- A funding request handed to a chain worker (`FaucetReq`). -/
structure FaucetReq where
  Recipient : AccAddress
  Coins : List Coin
  Fees : List Coin
  session : Option Session
  msg : Option MessageCreate
  deriving DecidableEq

/-- A persisted funding record (`db.FundingReceipt`). -/
structure FundingReceipt where
  ChainPrefix : String
  Username : String
  FundedAt : Time
  Amount : Coins
  deriving DecidableEq

/-- Calls the faucet makes on its collaborators, in the order they are made. Log
output is not part of the trace. -/
inductive Effect where
  /-- Call `chain.MultiSend(toAddr, coins, fees)`. -/
  | MultiSend (toAddr : List AccAddress) (coins : List Coins) (fees : Coins)
  /-- Call `s.MessageReactionAdd(channelID, messageID, emoji)`. -/
  | MessageReactionAdd (channelID messageID emoji : String)
  /-- Call `s.ChannelMessageSendReply(channelID, text, reference to messageID)`. -/
  | ChannelMessageSendReply (channelID : String) (text : Text) (messageID : String)
  /-- Call `s.UserChannelCreate(userID)`. -/
  | UserChannelCreate (userID : String)
  /-- Call `s.ChannelMessageSend(channelID, text)`. -/
  | ChannelMessageSend (channelID : String) (text : Text)
  /-- Call `t.Reset(interval)` on the worker's ticker. -/
  | tickerReset
  /-- Call `log.Fatal`, which ends the process. -/
  | logFatal
  /-- Send `faucet.channel <- req` to the worker of the chain `chain`. -/
  | channelSend (chain : String) (req : FaucetReq)
  /-- Call `ref.Set(ctx, receipt)` on the document `key` of `funding-receipts`. -/
  | docSet (key : String) (receipt : FundingReceipt)
  /-- Call `ref.Get(ctx)` on the document `key` of `funding-receipts`. -/
  | docGet (key : String)
  /-- Call `httpError(w, msg)`: header `x-faucet-error` and status 400. -/
  | httpError (msg : HttpMsg)
  /-- The success body "`p` faucet tokens sent to wallet: `wallet`". -/
  | httpSent (p wallet : String)
  deriving DecidableEq

/-- Funding configured for one chain (`ChainFundingInfo`). -/
structure ChainFundingInfo where
  Coins : String
  Fees : String
  deriving DecidableEq

/-- The process configuration and the answers of the external collaborators. -/
structure Env where
  /-- Variable `isDebug`: the environment variable `DEBUG` is set. -/
  isDebug : Bool
  /-- Variable `isSilent`. -/
  isSilent : Bool
  /-- Variable `fundingInterval`, the cooldown. -/
  fundingInterval : Duration
  /-- Variable `funding`; a chain without an entry has the zero value. -/
  funding : String → ChainFundingInfo
  /-- Successive readings of `time.Now()`. -/
  clock : Nat → Time
  /-- Result of the `k`-th call of `chain.MultiSend` made by a worker (`none`: success). -/
  MultiSend : Nat → Option Error
  /-- Result of `s.UserChannelCreate(userID)`: the ID of the direct-message channel. -/
  UserChannelCreate : String → Except Error String
  /-- Result of `bech32.Decode(address, 1023)`: the human-readable part. -/
  bech32Decode : String → Except Error String
  /-- Result of `cosmostypes.ParseCoinsNormalized`. -/
  ParseCoinsNormalized : String → Except Error Coins
  /-- Result of `chain.DecodeAddr(address)` on the chain with the given prefix. -/
  DecodeAddr : String → String → Except Error AccAddress
  /-- Function `getMD5Hash`: hex encoding of the MD5 digest. -/
  getMD5Hash : String → String
  /-- Failure, if any, of `ref.Get` on a document key, other than "not found". -/
  getFault : String → Option Error
  /-- Failure, if any, of `ref.Set` on a document key. -/
  setFault : String → Option Error

/-! ## Reporting to Discord (`main.go`) -/

/-- Function `isDM`. -/
def isDM (m : MessageCreate) : Bool := decide (m.GuildID = "")

/-- Function `sendReaction`: the calls it makes. -/
def sendReaction (env : Env) (s : Option Session) (m : Option MessageCreate)
    (reaction : String) : List Effect :=
  match s, m with
  | some _, some m =>
    if env.isSilent || m.Author.Bot then []
    else [Effect.MessageReactionAdd m.ChannelID m.ID reaction]
  | _, _ => []

/-- Function `sendMessage`: the calls it makes. -/
def sendMessage (env : Env) (s : Option Session) (m : Option MessageCreate)
    (text : Text) : List Effect :=
  match s, m with
  | some _, some m =>
    if m.Author.Bot || env.isSilent && !isDM m then []
    else
      match env.UserChannelCreate m.Author.ID with
      | Except.error _ => [Effect.UserChannelCreate m.Author.ID]
      | Except.ok directMessageChannel =>
        [Effect.UserChannelCreate m.Author.ID,
         Effect.ChannelMessageSend directMessageChannel text]
  | _, _ => []

/-- Function `reportError`: the calls it makes. -/
def reportError (env : Env) (s : Option Session) (m : Option MessageCreate)
    (errToReport : Error) : List Effect :=
  match s, m with
  | some s, some m =>
    if m.Author.Bot then []
    else
      sendReaction env (some s) (some m) "❌" ++
        [Effect.ChannelMessageSendReply m.ChannelID
          (Text.requestError m.Author.ID errToReport) m.ID]
  | _, _ => []

/-! ## The chain worker (`wallet_manager.go`) -/

/-- The three sequences `processRequests` builds in its first loop: destinations,
amounts and the combined fee. -/
def batchArgs (rs : List FaucetReq) : List AccAddress × List Coins × Coins :=
  rs.foldl
    (fun acc r => (acc.1 ++ [r.Recipient], acc.2.1 ++ [r.Coins], safeAdd acc.2.2 r.Fees))
    ([], [], [])

/-- What `processRequests` does for one request after `MultiSend` succeeded. -/
def reportSuccess (env : Env) (r : FaucetReq) : List Effect :=
  match r.session, r.msg with
  | some s, some m =>
    sendReaction env (some s) (some m) "✅" ++
      sendMessage env (some s) (some m) (Text.dispensed r.Coins r.Recipient)
  | _, _ => []

/-- Method `ChainFaucet.processRequests`: the calls it makes when `result` is what
`MultiSend` returns. -/
def processRequests (env : Env) (result : Option Error) (rs : List FaucetReq) :
    List Effect :=
  let args := batchArgs rs
  Effect.MultiSend args.1 args.2.1 args.2.2 ::
    match result with
    | some err => rs.flatMap (fun r => reportError env r.session r.msg err)
    | none => rs.flatMap (reportSuccess env)

/-- What a worker can receive in its `select`. -/
inductive Event where
  /-- A request read from `cf.channel`. -/
  | request (r : FaucetReq)
  /-- A tick of the 7 second ticker. -/
  | tick
  /-- A value read from `quit`. -/
  | quit
  deriving DecidableEq

/-- State of a worker running `Consume`, with the history of what it did. -/
structure Worker where
  /-- The window `rs` of pending requests. -/
  rs : List FaucetReq
  /-- The batches passed to `processRequests` so far, oldest first. -/
  flushed : List (List FaucetReq)
  /-- The calls made so far, oldest first. -/
  trace : List Effect
  /-- Whether `log.Fatal` has ended the worker. -/
  exited : Bool
  deriving DecidableEq

/-- A worker entering the loop of `Consume`. -/
def Worker.start : Worker := { rs := [], flushed := [], trace := [], exited := false }

/-- One call `cf.processRequests(rs)` made by the worker `w`. -/
def Worker.flush (env : Env) (w : Worker) (rs : List FaucetReq) : Worker :=
  { w with
    flushed := w.flushed ++ [rs]
    trace := w.trace ++ processRequests env (env.MultiSend w.flushed.length) rs }

/-- One iteration of the loop of `ChainFaucet.Consume`, on the event selected. -/
def Consume.step (env : Env) (w : Worker) : Event → Worker
  | Event.request r =>
    let rs := w.rs ++ [r]
    if rs.length > 160 then
      let w1 := w.flush env rs
      { w1 with rs := [], trace := w1.trace ++ [Effect.tickerReset] }
    else { w with rs := rs }
  | Event.tick =>
    if w.rs.length > 0 then { w.flush env w.rs with rs := [] }
    else w
  | Event.quit =>
    let w1 := if w.rs.length > 0 then w.flush env w.rs else w
    { w1 with trace := w1.trace ++ [Effect.logFatal], exited := true }

/-- Method `ChainFaucet.Consume` run from the worker state `w` on the events it
selects, in order; nothing is received once `log.Fatal` has ended the worker. -/
def Consume.run (env : Env) (w : Worker) (events : List Event) : Worker :=
  events.foldl (fun w e => if w.exited then w else Consume.step env w e) w

/-- Method `ChainFaucet.Consume`: the worker after the given events. -/
def Consume (env : Env) (events : List Event) : Worker :=
  Consume.run env Worker.start events

/-! ## The receipt store (`db/firebase_db.go`) -/

/-- The Firestore collection `funding-receipts`: the receipt stored under each
document key, if any. -/
abbrev Docs := String → Option FundingReceipt

/-- Function `mkPKEY`. -/
def mkPKEY (env : Env) (username chainPrefix : String) : String :=
  env.getMD5Hash (username ++ chainPrefix)

/-- Method `Db.SaveFundingReceipt`: the collection afterwards and the error returned. -/
def SaveFundingReceipt (env : Env) (docs : Docs) (newReceipt : FundingReceipt) :
    Docs × Option Error :=
  if env.isDebug then (docs, none)
  else
    match env.setFault (mkPKEY env newReceipt.Username newReceipt.ChainPrefix) with
    | some err => (docs, some err)
    | none =>
      (fun key =>
        if key = mkPKEY env newReceipt.Username newReceipt.ChainPrefix then some newReceipt
        else docs key,
       none)

/-- Method `Db.GetFundingReceiptByUsernameAndChainPrefix`. -/
def GetFundingReceiptByUsernameAndChainPrefix (env : Env) (docs : Docs)
    (username chainPrefix : String) : Except Error (Option FundingReceipt) :=
  if env.isDebug then Except.ok none
  else
    match env.getFault (mkPKEY env username chainPrefix) with
    | some err => Except.error err
    | none => Except.ok (docs (mkPKEY env username chainPrefix))

/-! ## The front ends (`main.go`) -/

/-- Unicode white space, as tested by Go's `unicode.IsSpace`. -/
def isSpace (c : Char) : Bool :=
  decide (c.toNat ∈ [0x09, 0x0A, 0x0B, 0x0C, 0x0D, 0x20, 0x85, 0xA0, 0x1680, 0x2028,
    0x2029, 0x202F, 0x205F, 0x3000]) || decide (0x2000 ≤ c.toNat ∧ c.toNat ≤ 0x200A)

/-- Go's `strings.TrimSpace`. -/
def TrimSpace (s : String) : String :=
  String.mk ((s.data.dropWhile isSpace).reverse.dropWhile isSpace).reverse

/-- A configured chain (`chain.Chain`). -/
structure Chain where
  Prefix : String
  RPC : String
  CoinType : Nat
  deriving DecidableEq

/-- The handler shared by both front ends (`FaucetHandler`). -/
structure FaucetHandler where
  chains : List Chain

/-- The map `fh.faucets` that `NewFaucetHandler` fills, one worker per chain prefix. -/
def FaucetHandler.faucets (fh : FaucetHandler) (p : String) : Option Chain :=
  fh.chains.foldl (fun found c => if c.Prefix = p then some c else found) none

/-- What the front ends act on: the receipt collection, the number of readings of
`time.Now()` taken so far, and the calls made so far. -/
structure World where
  docs : Docs
  reads : Nat
  trace : List Effect

/-- The world after the calls `es`. -/
def World.emit (w : World) (es : List Effect) : World :=
  { w with trace := w.trace ++ es }

/-- The world after one more reading of `time.Now()`. -/
def World.tick (w : World) : World := { w with reads := w.reads + 1 }

/-- The call `fh.db.GetFundingReceiptByUsernameAndChainPrefix` made by a front end. -/
def World.lookup (env : Env) (w : World) (username chainPrefix : String) :
    World × Except Error (Option FundingReceipt) :=
  ((if env.isDebug then w else w.emit [Effect.docGet (mkPKEY env username chainPrefix)]),
   GetFundingReceiptByUsernameAndChainPrefix env w.docs username chainPrefix)

/-- The call `fh.db.SaveFundingReceipt` made by a front end; its error is only logged. -/
def World.save (env : Env) (w : World) (newReceipt : FundingReceipt) : World :=
  { (if env.isDebug then w
     else w.emit [Effect.docSet (mkPKEY env newReceipt.Username newReceipt.ChainPrefix)
       newReceipt]) with
    docs := (SaveFundingReceipt env w.docs newReceipt).1 }

/-- The rate-limit check both front ends make on the receipt they looked up
(`main.go` lines 266-273 and 360-367): `none` admits, `some wait` denies with the
wait put in the error message. A receipt costs one reading of the clock for the
log line, one for the comparison and, on denial, one for `time.Until`. -/
def rateLimit (env : Env) (w : World) : Option FundingReceipt → World × Option Duration
  | none => (w, none)
  | some receipt =>
    if timeAfter (timeAdd receipt.FundedAt env.fundingInterval) (env.clock (w.reads + 1)) then
      (w.tick.tick.tick,
       some (Round
         (timeUntil (timeAdd receipt.FundedAt env.fundingInterval) (env.clock (w.reads + 2)))
         (2 * Second)))
    else (w.tick.tick, none)

/-- How a front end left the handling of one request. -/
inductive Exit where
  /-- The request was not looked at. -/
  | ignored
  /-- The query has no `wallet`. -/
  | walletMissing
  /-- The address is not bech32. -/
  | badAddress
  /-- No chain is configured for the prefix of the address. -/
  | unsupported
  /-- The configured coins do not parse. -/
  | badCoins
  /-- The configured fees do not parse. -/
  | badFees
  /-- The receipt lookup failed. -/
  | lookupFailed
  /-- The rate-limit check denied the request. -/
  | rateLimited
  /-- The chain client rejected the address. -/
  | malformed
  /-- The request was handed to the worker of its chain. -/
  | accepted
  /-- The handler panicked (nil dereference). -/
  | panicked
  deriving DecidableEq

/-- An HTTP request (`http.Request`), as far as `faucetHttp` reads it: `wallet` is
the first value of the query parameter `wallet`, if the query has one. -/
structure Request where
  Method : String
  Path : String
  wallet : Option String
  RemoteAddr : String

/-- Method `FaucetHandler.faucetHttp`. -/
def faucetHttp (env : Env) (fh : FaucetHandler) (w : World) (r : Request) : World × Exit :=
  if r.Method ≠ "GET" ∧ r.Path ≠ "/" then (w, Exit.ignored)
  else
    match r.wallet with
    | none => (w.emit [Effect.httpError HttpMsg.walletRequired], Exit.walletMissing)
    | some value =>
      match env.bech32Decode (TrimSpace value) with
      | Except.error err =>
        (w.emit [Effect.httpError (HttpMsg.notSupported "" err)], Exit.badAddress)
      | Except.ok p =>
        match fh.faucets p with
        | none =>
          -- `err` is nil here, so building the message with `err.Error()` panics
          (w, Exit.panicked)
        | some _ =>
          match env.ParseCoinsNormalized (env.funding p).Coins with
          | Except.error err =>
            (w.emit [Effect.httpError (HttpMsg.parsingCoins err)], Exit.badCoins)
          | Except.ok coins =>
            match env.ParseCoinsNormalized (env.funding p).Fees with
            | Except.error err =>
              (w.emit [Effect.httpError (HttpMsg.parsingFees err)], Exit.badFees)
            | Except.ok fees =>
              match (w.lookup env (TrimSpace value) p).2 with
              | Except.error err =>
                ((w.lookup env (TrimSpace value) p).1.emit
                  [Effect.httpError (HttpMsg.plain err)], Exit.lookupFailed)
              | Except.ok receipt =>
                match rateLimit env (w.lookup env (TrimSpace value) p).1 receipt with
                | (w1, some wait) =>
                  (w1.emit [Effect.httpError (HttpMsg.plain (Error.mustWait wait p))],
                   Exit.rateLimited)
                | (w1, none) =>
                  match env.DecodeAddr p (TrimSpace value) with
                  | Except.error err =>
                    (w1.emit [Effect.httpError (HttpMsg.malformed err)], Exit.malformed)
                  | Except.ok recipient =>
                    (((w1.emit [Effect.channelSend p
                          { Recipient := recipient, Coins := coins, Fees := fees,
                            session := none, msg := none }]).tick.save env
                        { ChainPrefix := p, Username := TrimSpace value,
                          FundedAt := env.clock w1.reads, Amount := coins }).emit
                      [Effect.httpSent p (TrimSpace value)],
                     Exit.accepted)

/-- First match of the pattern `!(request|help)(.*)` in a line of text: the two
groups. -/
def findCmd : List Char → Option (String × String)
  | [] => none
  | c :: cs =>
    if List.isPrefixOf "!request".data (c :: cs) then
      some ("request", String.mk ((c :: cs).drop 8))
    else if List.isPrefixOf "!help".data (c :: cs) then
      some ("help", String.mk ((c :: cs).drop 5))
    else findCmd cs

/-- The call `fh.cmd.FindAllStringSubmatch(content, -1)` for the pattern
`!(request|help)(.*)`: `.` does not match a line break, so there is at most one
match per line, the leftmost one, running to the end of the line. -/
def FindAllStringSubmatch (content : String) : List (String × String) :=
  (List.splitOn '\n' content.data).filterMap findCmd

/-- Function `help`. -/
def help (env : Env) (s : Session) (m : MessageCreate) (chains : List Chain) : List Effect :=
  sendMessage env (some s) (some m) (Text.help (chains.map Chain.Prefix))

/-- The case `"request"` of the loop of `handleDispense`, for the destination
`dstAddr`. Every exit but `Exit.accepted` returns from `handleDispense`. -/
def dispenseRequest (env : Env) (fh : FaucetHandler) (w : World) (s : Session)
    (m : MessageCreate) (dstAddr : String) : World × Exit :=
  match env.bech32Decode dstAddr with
  | Except.error err => (w.emit (reportError env (some s) (some m) err), Exit.badAddress)
  | Except.ok p =>
    match fh.faucets p with
    | none =>
      (w.emit (reportError env (some s) (some m) (Error.notSupported p)), Exit.unsupported)
    | some _ =>
      match env.ParseCoinsNormalized (env.funding p).Coins with
      | Except.error err => (w.emit (reportError env (some s) (some m) err), Exit.badCoins)
      | Except.ok coins =>
        match env.ParseCoinsNormalized (env.funding p).Fees with
        | Except.error err => (w.emit (reportError env (some s) (some m) err), Exit.badFees)
        | Except.ok fees =>
          match (w.lookup env m.Author.ID p).2 with
          | Except.error _ => ((w.lookup env m.Author.ID p).1, Exit.lookupFailed)
          | Except.ok receipt =>
            match rateLimit env (w.lookup env m.Author.ID p).1 receipt with
            | (w1, some wait) =>
              (w1.emit (reportError env (some s) (some m) (Error.mustWait wait p)),
               Exit.rateLimited)
            | (w1, none) =>
              match env.DecodeAddr p dstAddr with
              | Except.error err =>
                (w1.emit (reportError env (some s) (some m) (Error.malformed err)),
                 Exit.malformed)
              | Except.ok recipient =>
                ((w1.emit (sendReaction env (some s) (some m) "👍" ++
                    [Effect.channelSend p
                      { Recipient := recipient, Coins := coins, Fees := fees,
                        session := some s, msg := some m }])).tick.save env
                    { ChainPrefix := p, Username := m.Author.ID,
                      FundedAt := env.clock w1.reads, Amount := coins },
                 Exit.accepted)

/-- The loop of `handleDispense` over the matches of the command pattern. -/
def dispenseLoop (env : Env) (fh : FaucetHandler) (s : Session) (m : MessageCreate) :
    World → List (String × String) → World
  | w, [] => w
  | w, (cmd, args) :: rest =>
    if TrimSpace cmd = "request" then
      match dispenseRequest env fh w s m (TrimSpace args) with
      | (w1, Exit.accepted) => dispenseLoop env fh s m w1 rest
      | (w1, _) => w1
    else dispenseLoop env fh s m (w.emit (help env s m fh.chains)) rest

/-- Method `FaucetHandler.handleDispense`. -/
def handleDispense (env : Env) (fh : FaucetHandler) (w : World) (s : Session)
    (m : MessageCreate) : World :=
  if m.Author.ID = s.StateUserID then w
  else if (FindAllStringSubmatch m.Content).length > 0 then
    dispenseLoop env fh s m w (FindAllStringSubmatch m.Content)
  else if m.GuildID = "" then w.emit (help env s m fh.chains)
  else w

/-! ## Observations on traces and event sequences -/

/-- The calls of `chain.MultiSend` in a trace, in order, with their arguments. -/
def multiSends (trace : List Effect) : List (List AccAddress × List Coins × Coins) :=
  trace.filterMap fun e =>
    match e with
    | Effect.MultiSend toAddr coins fees => some (toAddr, coins, fees)
    | _ => none

/-- The requests that arrive in a sequence of events, in order of arrival. -/
def arrivals (events : List Event) : List FaucetReq :=
  events.filterMap fun e =>
    match e with
    | Event.request r => some r
    | _ => none

/-- The requests handed to chain workers in a trace, in order, each with the prefix
of its chain. -/
def enqueued (trace : List Effect) : List (String × FaucetReq) :=
  trace.filterMap fun e =>
    match e with
    | Effect.channelSend chain req => some (chain, req)
    | _ => none

/-! ## The outcome of a batch, as described -/

/-- What the faucet sends for one request of a flushed batch, written from the
description of the outcome rather than from the code, to be compared with
`reportError` and with the success branch of `processRequests`. A request without a
session or a message, or whose message was written by a bot, is sent nothing. Any
other request is sent, on a failure, a reaction (unless the faucet is silent) and a
reply with that failure; on a success, a reaction (unless the faucet is silent) and,
unless the faucet is silent and the message was not a direct one, a direct message
with its own amount and destination once the direct-message channel is open. -/
def expectedNotice (env : Env) (result : Option Error) (r : FaucetReq) : List Effect :=
  match r.session, r.msg with
  | some _, some m =>
    if m.Author.Bot then []
    else
      match result with
      | some err =>
        (if env.isSilent then [] else [Effect.MessageReactionAdd m.ChannelID m.ID "❌"]) ++
          [Effect.ChannelMessageSendReply m.ChannelID
            (Text.requestError m.Author.ID err) m.ID]
      | none =>
        (if env.isSilent then [] else [Effect.MessageReactionAdd m.ChannelID m.ID "✅"]) ++
          (if env.isSilent = true ∧ m.GuildID ≠ "" then []
           else
             match env.UserChannelCreate m.Author.ID with
             | Except.ok channel =>
               [Effect.UserChannelCreate m.Author.ID,
                Effect.ChannelMessageSend channel (Text.dispensed r.Coins r.Recipient)]
             | Except.error _ => [Effect.UserChannelCreate m.Author.ID])
  | _, _ => []

/-! ## A sample deployment

One chain, `umee`, funded with `1000uumee` for a fee of `20uumee`, a cooldown of
twelve hours, and collaborators that always succeed. -/

/-- A bech32 address of the chain `umee` (twenty zero bytes). -/
def sampleAddr : String := "umee1qqqqqqqqqqqqqqqqqqqqqqqqqqqqqqqqp4aqr0"

/-- A bech32 address of the chain `cosmos`, which the sample does not configure. -/
def otherAddr : String := "cosmos1qqqqqqqqqqqqqqqqqqqqqqqqqqqqqqqqnrql8a"

/-- The sample configuration; the clock stands at `now`, and the identity function
stands in for the digest. -/
def sampleEnv (now : Time) : Env where
  isDebug := false
  isSilent := false
  fundingInterval := 12 * Hour
  funding := fun _ => { Coins := "1000uumee", Fees := "20uumee" }
  clock := fun _ => now
  MultiSend := fun _ => none
  UserChannelCreate := fun userID => Except.ok ("dm-" ++ userID)
  bech32Decode := fun a =>
    if a = sampleAddr then Except.ok "umee"
    else if a = otherAddr then Except.ok "cosmos"
    else Except.error (Error.ext "invalid bech32 string")
  ParseCoinsNormalized := fun text =>
    if text = "1000uumee" then Except.ok [{ Denom := "uumee", Amount := 1000 }]
    else if text = "20uumee" then Except.ok [{ Denom := "uumee", Amount := 20 }]
    else Except.error (Error.ext "invalid decimal coin expression")
  DecodeAddr := fun _ a =>
    if a = sampleAddr then Except.ok (List.replicate 20 0)
    else Except.error (Error.ext "decoding bech32 failed")
  getMD5Hash := fun text => text
  getFault := fun _ => none
  setFault := fun _ => none

/-- The sample handler: the single chain `umee`. -/
def sampleHandler : FaucetHandler :=
  { chains := [{ Prefix := "umee", RPC := "https://rpc.example", CoinType := 118 }] }

/-- The receipt of a funding of `who` on `umee` at instant zero. -/
def sampleReceipt (who : String) : FundingReceipt :=
  { ChainPrefix := "umee", Username := who, FundedAt := 0,
    Amount := [{ Denom := "uumee", Amount := 1000 }] }

/-- A world in which the sample address and the Discord user `1001` were both
funded on `umee` at instant zero. -/
def sampleWorld : World where
  docs := fun key =>
    if key = sampleAddr ++ "umee" then some (sampleReceipt sampleAddr)
    else if key = "1001umee" then some (sampleReceipt "1001")
    else none
  reads := 0
  trace := []

/-- The request `GET /?wallet=` for the address `wallet`. -/
def sampleRequest (wallet : String) : Request :=
  { Method := "GET", Path := "/", wallet := some wallet, RemoteAddr := "203.0.113.7:4711" }

/-- The session of the bot. -/
def sampleSession : Session := { StateUserID := "42" }

/-- A message of the Discord user `1001` in a guild channel. -/
def sampleMessage (content : String) : MessageCreate :=
  { ID := "m1", ChannelID := "c1", GuildID := "g1", Content := content,
    Author := { ID := "1001", Bot := false } }

/-- A request of the HTTP front end for the sample address. -/
def sampleReq : FaucetReq :=
  { Recipient := List.replicate 20 0, Coins := [{ Denom := "uumee", Amount := 1000 }],
    Fees := [{ Denom := "uumee", Amount := 20 }], session := none, msg := none }

/-- A request of the Discord front end, from the author of `sampleMessage`. -/
def sampleChatReq : FaucetReq :=
  { sampleReq with
    session := some sampleSession, msg := some (sampleMessage ("!request " ++ sampleAddr)) }

/-- A request of the Discord front end whose author is another bot. -/
def sampleBotReq : FaucetReq :=
  { sampleReq with
    session := some sampleSession,
    msg := some { ID := "m2", ChannelID := "c1", GuildID := "g1",
                  Content := "!request " ++ sampleAddr,
                  Author := { ID := "2002", Bot := true } } }

/-- A world without any receipt, before any call. -/
def freshWorld : World := { docs := fun _ => none, reads := 0, trace := [] }

/-- The request `POST /?wallet=` for the address `wallet`. -/
def samplePost (wallet : String) : Request :=
  { Method := "POST", Path := "/", wallet := some wallet, RemoteAddr := "203.0.113.7:4711" }

/-! ## Rate limiter -/

/-- The receipt lookup of a front end returns what the store function returns. -/
theorem World.lookup_snd (env : Env) (w : World) (u c : String) :
    (w.lookup env u c).2 = GetFundingReceiptByUsernameAndChainPrefix env w.docs u c := rfl

/-- The receipt lookup of a front end takes no reading of the clock. -/
theorem World.lookup_reads (env : Env) (w : World) (u c : String) :
    (w.lookup env u c).1.reads = w.reads := by
  unfold World.lookup World.emit
  split <;> rfl

/-- The check admits exactly when there is no receipt or the cooldown has elapsed at
the reading used by the comparison. -/
theorem rateLimit_none_iff (env : Env) (w : World) (receipt : Option FundingReceipt) :
    (rateLimit env w receipt).2 = none ↔
      (receipt = none ∨ ∃ rec, receipt = some rec ∧
        rec.FundedAt + env.fundingInterval ≤ env.clock (w.reads + 1)) := by
  cases receipt with
  | none => simp [rateLimit]
  | some rec =>
    unfold rateLimit
    by_cases h : env.clock (w.reads + 1) < rec.FundedAt + env.fundingInterval
    · simp [timeAfter, timeAdd, h]
    · simp [timeAfter, timeAdd, h]
      exact not_lt.mp h

/-- The check denies exactly when there is a receipt whose cooldown has not elapsed. -/
theorem rateLimit_some_iff (env : Env) (w : World) (receipt : Option FundingReceipt) :
    (∃ wait, (rateLimit env w receipt).2 = some wait) ↔
      ∃ rec, receipt = some rec ∧
        env.clock (w.reads + 1) < rec.FundedAt + env.fundingInterval := by
  cases receipt with
  | none => simp [rateLimit]
  | some rec =>
    unfold rateLimit
    by_cases h : env.clock (w.reads + 1) < rec.FundedAt + env.fundingInterval
    · simp [timeAfter, timeAdd, h]
    · simp [timeAfter, timeAdd, h]

/-- Exit of `faucetHttp` for a request that reaches the rate-limit check. -/
theorem faucetHttp_exit (env : Env) (fh : FaucetHandler) (w : World)
    (r : Request) (value p : String) (c : Chain) (coins fees : Coins)
    (receipt : Option FundingReceipt)
    (hmethod : ¬(r.Method ≠ "GET" ∧ r.Path ≠ "/"))
    (hwallet : r.wallet = some value)
    (hdecode : env.bech32Decode (TrimSpace value) = Except.ok p)
    (hchain : fh.faucets p = some c)
    (hcoins : env.ParseCoinsNormalized (env.funding p).Coins = Except.ok coins)
    (hfees : env.ParseCoinsNormalized (env.funding p).Fees = Except.ok fees)
    (hlookup : GetFundingReceiptByUsernameAndChainPrefix env w.docs (TrimSpace value) p
      = Except.ok receipt) :
    (faucetHttp env fh w r).2 =
      match (rateLimit env (w.lookup env (TrimSpace value) p).1 receipt).2 with
      | some _ => Exit.rateLimited
      | none =>
        match env.DecodeAddr p (TrimSpace value) with
        | Except.error _ => Exit.malformed
        | Except.ok _ => Exit.accepted := by
  unfold faucetHttp
  rw [if_neg hmethod]
  simp only [hwallet, hdecode, hchain, hcoins, hfees, World.lookup_snd, hlookup]
  rcases hrl : rateLimit env (w.lookup env (TrimSpace value) p).1 receipt with ⟨w1, _ | wait⟩
  · simp only
    cases env.DecodeAddr p (TrimSpace value) <;> rfl
  · rfl

/-- Exit of the `request` case of `handleDispense` for a request that reaches the
rate-limit check. -/
theorem dispenseRequest_exit (env : Env) (fh : FaucetHandler) (w : World)
    (s : Session) (m : MessageCreate) (dstAddr p : String) (c : Chain)
    (coins fees : Coins) (receipt : Option FundingReceipt)
    (hdecode : env.bech32Decode dstAddr = Except.ok p)
    (hchain : fh.faucets p = some c)
    (hcoins : env.ParseCoinsNormalized (env.funding p).Coins = Except.ok coins)
    (hfees : env.ParseCoinsNormalized (env.funding p).Fees = Except.ok fees)
    (hlookup : GetFundingReceiptByUsernameAndChainPrefix env w.docs m.Author.ID p
      = Except.ok receipt) :
    (dispenseRequest env fh w s m dstAddr).2 =
      match (rateLimit env (w.lookup env m.Author.ID p).1 receipt).2 with
      | some _ => Exit.rateLimited
      | none =>
        match env.DecodeAddr p dstAddr with
        | Except.error _ => Exit.malformed
        | Except.ok _ => Exit.accepted := by
  unfold dispenseRequest
  simp only [hdecode, hchain, hcoins, hfees, World.lookup_snd, hlookup]
  rcases hrl : rateLimit env (w.lookup env m.Author.ID p).1 receipt with ⟨w1, _ | wait⟩
  · simp only
    cases env.DecodeAddr p dstAddr <;> rfl
  · rfl

/-- The exit selected by the outcome of the check is an admission exactly when the
check returned no wait. -/
theorem exit_admitted_iff (rl : Option Duration) (dec : Except Error AccAddress) :
    (((match rl with
        | some _ => Exit.rateLimited
        | none =>
          match dec with
          | Except.error _ => Exit.malformed
          | Except.ok _ => Exit.accepted) = Exit.accepted ∨
      (match rl with
        | some _ => Exit.rateLimited
        | none =>
          match dec with
          | Except.error _ => Exit.malformed
          | Except.ok _ => Exit.accepted) = Exit.malformed) ↔ rl = none) ∧
    ((match rl with
        | some _ => Exit.rateLimited
        | none =>
          match dec with
          | Except.error _ => Exit.malformed
          | Except.ok _ => Exit.accepted) = Exit.rateLimited ↔ ∃ wait, rl = some wait) := by
  cases rl <;> cases dec <;> simp

/-- Claim C1. When the receipt lookup succeeds, each front end (`faucetHttp`, and
`handleDispense` in its `request` case) lets the request past the rate-limit check
if and only if the lookup found no record or `record.FundedAt + cooldown <= now`,
and denies it if and only if there is a record with `now < record.FundedAt + cooldown`;
`now` is the reading of the clock used by the comparison. -/
theorem rate_limit_admits_iff (env : Env) (fh : FaucetHandler) (w : World)
    (r : Request) (value p : String) (c : Chain) (coins fees : Coins)
    (receipt : Option FundingReceipt)
    (s : Session) (m : MessageCreate) (dstAddr q : String) (c' : Chain)
    (coins' fees' : Coins) (receipt' : Option FundingReceipt)
    (hmethod : ¬(r.Method ≠ "GET" ∧ r.Path ≠ "/"))
    (hwallet : r.wallet = some value)
    (hdecode : env.bech32Decode (TrimSpace value) = Except.ok p)
    (hchain : fh.faucets p = some c)
    (hcoins : env.ParseCoinsNormalized (env.funding p).Coins = Except.ok coins)
    (hfees : env.ParseCoinsNormalized (env.funding p).Fees = Except.ok fees)
    (hlookup : GetFundingReceiptByUsernameAndChainPrefix env w.docs (TrimSpace value) p
      = Except.ok receipt)
    (hdecode' : env.bech32Decode dstAddr = Except.ok q)
    (hchain' : fh.faucets q = some c')
    (hcoins' : env.ParseCoinsNormalized (env.funding q).Coins = Except.ok coins')
    (hfees' : env.ParseCoinsNormalized (env.funding q).Fees = Except.ok fees')
    (hlookup' : GetFundingReceiptByUsernameAndChainPrefix env w.docs m.Author.ID q
      = Except.ok receipt') :
    (((faucetHttp env fh w r).2 = Exit.accepted ∨ (faucetHttp env fh w r).2 = Exit.malformed) ↔
      (receipt = none ∨ ∃ rec, receipt = some rec ∧
        rec.FundedAt + env.fundingInterval ≤ env.clock (w.reads + 1))) ∧
    ((faucetHttp env fh w r).2 = Exit.rateLimited ↔
      ∃ rec, receipt = some rec ∧
        env.clock (w.reads + 1) < rec.FundedAt + env.fundingInterval) ∧
    (((dispenseRequest env fh w s m dstAddr).2 = Exit.accepted ∨
        (dispenseRequest env fh w s m dstAddr).2 = Exit.malformed) ↔
      (receipt' = none ∨ ∃ rec, receipt' = some rec ∧
        rec.FundedAt + env.fundingInterval ≤ env.clock (w.reads + 1))) ∧
    ((dispenseRequest env fh w s m dstAddr).2 = Exit.rateLimited ↔
      ∃ rec, receipt' = some rec ∧
        env.clock (w.reads + 1) < rec.FundedAt + env.fundingInterval) := by
  rw [faucetHttp_exit env fh w r value p c coins fees receipt hmethod hwallet hdecode hchain
      hcoins hfees hlookup,
    dispenseRequest_exit env fh w s m dstAddr q c' coins' fees' receipt' hdecode' hchain'
      hcoins' hfees' hlookup']
  have h1 := rateLimit_none_iff env (w.lookup env (TrimSpace value) p).1 receipt
  have h2 := rateLimit_some_iff env (w.lookup env (TrimSpace value) p).1 receipt
  have h3 := rateLimit_none_iff env (w.lookup env m.Author.ID q).1 receipt'
  have h4 := rateLimit_some_iff env (w.lookup env m.Author.ID q).1 receipt'
  rw [World.lookup_reads] at h1 h2 h3 h4
  refine ⟨?_, ?_, ?_, ?_⟩
  · rw [(exit_admitted_iff _ _).1]; exact h1
  · rw [(exit_admitted_iff _ _).2]; exact h2
  · rw [(exit_admitted_iff _ _).1]; exact h3
  · rw [(exit_admitted_iff _ _).2]; exact h4

/-- Witness for claim C1: in the sample deployment both front ends let
a caller funded at instant zero past the check when the clock stands at exactly
twelve hours, the cooldown. -/
theorem rate_limit_admits_iff_witness :
    ((faucetHttp (sampleEnv (12 * Hour)) sampleHandler sampleWorld
          (sampleRequest sampleAddr)).2 = Exit.accepted ∨
      (faucetHttp (sampleEnv (12 * Hour)) sampleHandler sampleWorld
          (sampleRequest sampleAddr)).2 = Exit.malformed) ∧
    ((dispenseRequest (sampleEnv (12 * Hour)) sampleHandler sampleWorld sampleSession
          (sampleMessage ("!request " ++ sampleAddr)) sampleAddr).2 = Exit.accepted ∨
      (dispenseRequest (sampleEnv (12 * Hour)) sampleHandler sampleWorld sampleSession
          (sampleMessage ("!request " ++ sampleAddr)) sampleAddr).2 = Exit.malformed) :=
  have h := rate_limit_admits_iff (sampleEnv (12 * Hour)) sampleHandler sampleWorld
    (sampleRequest sampleAddr) sampleAddr "umee"
    { Prefix := "umee", RPC := "https://rpc.example", CoinType := 118 }
    [{ Denom := "uumee", Amount := 1000 }] [{ Denom := "uumee", Amount := 20 }]
    (some (sampleReceipt sampleAddr))
    sampleSession (sampleMessage ("!request " ++ sampleAddr)) sampleAddr "umee"
    { Prefix := "umee", RPC := "https://rpc.example", CoinType := 118 }
    [{ Denom := "uumee", Amount := 1000 }] [{ Denom := "uumee", Amount := 20 }]
    (some (sampleReceipt "1001"))
    (by decide) rfl rfl rfl rfl rfl rfl rfl rfl rfl rfl rfl
  ⟨h.1.mpr (Or.inr ⟨sampleReceipt sampleAddr, rfl, by decide⟩),
   h.2.2.1.mpr (Or.inr ⟨sampleReceipt "1001", rfl, by decide⟩)⟩

/-- On a wait that is not negative and leaves room for one more step, `Round` to
two seconds returns the nearest multiple of two seconds, a half going up. -/
theorem Round_two_seconds (d : Duration) (h0 : 0 ≤ d) (h1 : d ≤ maxDuration - 2 * Second) :
    Round d (2 * Second) = 2 * Second * ((d + Second) / (2 * Second)) := by
  unfold Round lessThanHalf wrapInt64 toUint64
  rw [Int.tmod_eq_emod h0 (by unfold Second; norm_num)]
  unfold maxDuration Second at *
  simp only [decide_eq_true_eq]
  unfold Duration at *
  split_ifs <;> omega

/-- The check makes no call. -/
theorem rateLimit_trace (env : Env) (w : World) (receipt : Option FundingReceipt) :
    (rateLimit env w receipt).1.trace = w.trace := by
  cases receipt with
  | none => rfl
  | some rec =>
    simp only [rateLimit]
    split <;> rfl

/-- The wait returned by the check on a receipt whose cooldown has not elapsed. -/
theorem rateLimit_denied (env : Env) (w : World) (rec : FundingReceipt)
    (h : env.clock (w.reads + 1) < rec.FundedAt + env.fundingInterval) :
    (rateLimit env w (some rec)).2 =
      some (Round (timeUntil (timeAdd rec.FundedAt env.fundingInterval)
        (env.clock (w.reads + 2))) (2 * Second)) := by
  unfold rateLimit
  simp [timeAfter, timeAdd, h]

/-- What `faucetHttp` does with a request the check denies. -/
theorem faucetHttp_denied (env : Env) (fh : FaucetHandler) (w : World)
    (r : Request) (value p : String) (c : Chain) (coins fees : Coins)
    (receipt : Option FundingReceipt) (wait : Duration)
    (hmethod : ¬(r.Method ≠ "GET" ∧ r.Path ≠ "/"))
    (hwallet : r.wallet = some value)
    (hdecode : env.bech32Decode (TrimSpace value) = Except.ok p)
    (hchain : fh.faucets p = some c)
    (hcoins : env.ParseCoinsNormalized (env.funding p).Coins = Except.ok coins)
    (hfees : env.ParseCoinsNormalized (env.funding p).Fees = Except.ok fees)
    (hlookup : GetFundingReceiptByUsernameAndChainPrefix env w.docs (TrimSpace value) p
      = Except.ok receipt)
    (hwait : (rateLimit env (w.lookup env (TrimSpace value) p).1 receipt).2 = some wait) :
    (faucetHttp env fh w r).1.trace =
      (w.lookup env (TrimSpace value) p).1.trace ++
        [Effect.httpError (HttpMsg.plain (Error.mustWait wait p))] := by
  unfold faucetHttp
  rw [if_neg hmethod]
  simp only [hwallet, hdecode, hchain, hcoins, hfees, World.lookup_snd, hlookup]
  have ht := rateLimit_trace env (w.lookup env (TrimSpace value) p).1 receipt
  rcases hrl : rateLimit env (w.lookup env (TrimSpace value) p).1 receipt with ⟨w1, _ | wt⟩
  · rw [hrl] at hwait; cases hwait
  · rw [hrl] at hwait ht
    cases hwait
    simp only [World.emit]
    rw [← ht]

/-- What the `request` case of `handleDispense` does with a request the check denies. -/
theorem dispenseRequest_denied (env : Env) (fh : FaucetHandler) (w : World)
    (s : Session) (m : MessageCreate) (dstAddr p : String) (c : Chain)
    (coins fees : Coins) (receipt : Option FundingReceipt) (wait : Duration)
    (hdecode : env.bech32Decode dstAddr = Except.ok p)
    (hchain : fh.faucets p = some c)
    (hcoins : env.ParseCoinsNormalized (env.funding p).Coins = Except.ok coins)
    (hfees : env.ParseCoinsNormalized (env.funding p).Fees = Except.ok fees)
    (hlookup : GetFundingReceiptByUsernameAndChainPrefix env w.docs m.Author.ID p
      = Except.ok receipt)
    (hwait : (rateLimit env (w.lookup env m.Author.ID p).1 receipt).2 = some wait) :
    (dispenseRequest env fh w s m dstAddr).1.trace =
      (w.lookup env m.Author.ID p).1.trace ++
        reportError env (some s) (some m) (Error.mustWait wait p) := by
  unfold dispenseRequest
  simp only [hdecode, hchain, hcoins, hfees, World.lookup_snd, hlookup]
  have ht := rateLimit_trace env (w.lookup env m.Author.ID p).1 receipt
  rcases hrl : rateLimit env (w.lookup env m.Author.ID p).1 receipt with ⟨w1, _ | wt⟩
  · rw [hrl] at hwait; cases hwait
  · rw [hrl] at hwait ht
    cases hwait
    simp only [World.emit]
    rw [← ht]

/-- Claim C2, as the code has it. For a record whose cooldown has not elapsed at the
instant `now` read by the check and by `time.Until`, with the remaining wait
`d = record.FundedAt + cooldown - now` at most `maxDuration - 2s`, the denial both
front ends report carries `d` rounded to the nearest multiple of two seconds, a
half going up: `2s * ((d + 1s) / 2s)`. -/
theorem denial_reports_rounded_wait (env : Env) (fh : FaucetHandler) (w : World)
    (r : Request) (value p : String) (c : Chain) (coins fees : Coins)
    (rec : FundingReceipt)
    (s : Session) (m : MessageCreate) (dstAddr q : String) (c' : Chain)
    (coins' fees' : Coins) (rec' : FundingReceipt) (now : Time)
    (hmethod : ¬(r.Method ≠ "GET" ∧ r.Path ≠ "/"))
    (hwallet : r.wallet = some value)
    (hdecode : env.bech32Decode (TrimSpace value) = Except.ok p)
    (hchain : fh.faucets p = some c)
    (hcoins : env.ParseCoinsNormalized (env.funding p).Coins = Except.ok coins)
    (hfees : env.ParseCoinsNormalized (env.funding p).Fees = Except.ok fees)
    (hlookup : GetFundingReceiptByUsernameAndChainPrefix env w.docs (TrimSpace value) p
      = Except.ok (some rec))
    (hdecode' : env.bech32Decode dstAddr = Except.ok q)
    (hchain' : fh.faucets q = some c')
    (hcoins' : env.ParseCoinsNormalized (env.funding q).Coins = Except.ok coins')
    (hfees' : env.ParseCoinsNormalized (env.funding q).Fees = Except.ok fees')
    (hlookup' : GetFundingReceiptByUsernameAndChainPrefix env w.docs m.Author.ID q
      = Except.ok (some rec'))
    (hnow : env.clock (w.reads + 1) = now) (hnow' : env.clock (w.reads + 2) = now)
    (hlt : now < rec.FundedAt + env.fundingInterval)
    (hfit : rec.FundedAt + env.fundingInterval - now ≤ maxDuration - 2 * Second)
    (hlt' : now < rec'.FundedAt + env.fundingInterval)
    (hfit' : rec'.FundedAt + env.fundingInterval - now ≤ maxDuration - 2 * Second) :
    (faucetHttp env fh w r).1.trace =
      (w.lookup env (TrimSpace value) p).1.trace ++
        [Effect.httpError (HttpMsg.plain (Error.mustWait
          (2 * Second * ((rec.FundedAt + env.fundingInterval - now + Second) / (2 * Second)))
          p))] ∧
    (dispenseRequest env fh w s m dstAddr).1.trace =
      (w.lookup env m.Author.ID q).1.trace ++
        reportError env (some s) (some m) (Error.mustWait
          (2 * Second * ((rec'.FundedAt + env.fundingInterval - now + Second) / (2 * Second)))
          q) := by
  have until_eq : ∀ rc : FundingReceipt, now < rc.FundedAt + env.fundingInterval →
      rc.FundedAt + env.fundingInterval - now ≤ maxDuration - 2 * Second →
      Round (timeUntil (timeAdd rc.FundedAt env.fundingInterval) now) (2 * Second) =
        2 * Second * ((rc.FundedAt + env.fundingInterval - now + Second) / (2 * Second)) := by
    intro rc h1 h2
    have hsub : timeUntil (timeAdd rc.FundedAt env.fundingInterval) now =
        rc.FundedAt + env.fundingInterval - now := by
      unfold timeUntil timeSub timeAdd
      unfold maxDuration minDuration Second at *
      unfold Duration Time at *
      split_ifs <;> omega
    rw [hsub]
    apply Round_two_seconds
    · unfold Duration Time at *; omega
    · exact h2
  constructor
  · apply faucetHttp_denied env fh w r value p c coins fees (some rec) _ hmethod hwallet
      hdecode hchain hcoins hfees hlookup
    rw [rateLimit_denied, World.lookup_reads, hnow', until_eq rec hlt hfit]
    rw [World.lookup_reads, hnow]; exact hlt
  · apply dispenseRequest_denied env fh w s m dstAddr q c' coins' fees' (some rec') _
      hdecode' hchain' hcoins' hfees' hlookup'
    rw [rateLimit_denied, World.lookup_reads, hnow', until_eq rec' hlt' hfit']
    rw [World.lookup_reads, hnow]; exact hlt'

/-- Witness for claim C2: in the sample deployment, one second before the cooldown of
twelve hours ends, both front ends report a wait of two seconds. -/
theorem denial_reports_rounded_wait_witness :
    (faucetHttp (sampleEnv (12 * Hour - Second)) sampleHandler sampleWorld
        (sampleRequest sampleAddr)).1.trace =
      (sampleWorld.lookup (sampleEnv (12 * Hour - Second)) (TrimSpace sampleAddr)
          "umee").1.trace ++
        [Effect.httpError (HttpMsg.plain (Error.mustWait
          (2 * Second * (((sampleReceipt sampleAddr).FundedAt +
            (sampleEnv (12 * Hour - Second)).fundingInterval - (12 * Hour - Second) + Second)
              / (2 * Second)))
          "umee"))] ∧
    (dispenseRequest (sampleEnv (12 * Hour - Second)) sampleHandler sampleWorld sampleSession
        (sampleMessage ("!request " ++ sampleAddr)) sampleAddr).1.trace =
      (sampleWorld.lookup (sampleEnv (12 * Hour - Second)) "1001" "umee").1.trace ++
        reportError (sampleEnv (12 * Hour - Second)) (some sampleSession)
          (some (sampleMessage ("!request " ++ sampleAddr)))
          (Error.mustWait
            (2 * Second * (((sampleReceipt "1001").FundedAt +
              (sampleEnv (12 * Hour - Second)).fundingInterval - (12 * Hour - Second) + Second)
                / (2 * Second)))
            "umee") :=
  denial_reports_rounded_wait (sampleEnv (12 * Hour - Second)) sampleHandler sampleWorld
    (sampleRequest sampleAddr) sampleAddr "umee"
    { Prefix := "umee", RPC := "https://rpc.example", CoinType := 118 }
    [{ Denom := "uumee", Amount := 1000 }] [{ Denom := "uumee", Amount := 20 }]
    (sampleReceipt sampleAddr)
    sampleSession (sampleMessage ("!request " ++ sampleAddr)) sampleAddr "umee"
    { Prefix := "umee", RPC := "https://rpc.example", CoinType := 118 }
    [{ Denom := "uumee", Amount := 1000 }] [{ Denom := "uumee", Amount := 20 }]
    (sampleReceipt "1001") (12 * Hour - Second)
    (by decide) rfl rfl rfl rfl rfl rfl rfl rfl rfl rfl rfl rfl rfl
    (by decide) (by decide) (by decide) (by decide)

/-- Counterexample to claim C2 as stated: one second before the cooldown ends the
remaining wait is one second, yet the denial `faucetHttp` reports carries a wait of
two seconds. -/
theorem denial_wait_not_exact :
    (sampleReceipt sampleAddr).FundedAt + (sampleEnv (12 * Hour - Second)).fundingInterval
        - (sampleEnv (12 * Hour - Second)).clock 1 = Second ∧
    (faucetHttp (sampleEnv (12 * Hour - Second)) sampleHandler sampleWorld
        (sampleRequest sampleAddr)).1.trace =
      [Effect.docGet (sampleAddr ++ "umee"),
       Effect.httpError (HttpMsg.plain (Error.mustWait (2 * Second) "umee"))] ∧
    (2 * Second : Duration) ≠ Second := by
  refine ⟨by decide, by decide, by decide⟩

/-! ## The chain worker -/

/-- Reporting a failure to one request makes no call of `MultiSend`. -/
theorem multiSends_reportError (env : Env) (s : Option Session) (m : Option MessageCreate)
    (err : Error) : multiSends (reportError env s m err) = [] := by
  cases s with
  | none => cases m <;> rfl
  | some s =>
    cases m with
    | none => rfl
    | some m =>
      cases h1 : env.isSilent <;> cases h2 : m.Author.Bot <;>
        simp [reportError, sendReaction, multiSends, h1, h2]

/-- Reporting a success to one request makes no call of `MultiSend`. -/
theorem multiSends_reportSuccess (env : Env) (r : FaucetReq) :
    multiSends (reportSuccess env r) = [] := by
  unfold reportSuccess
  cases r.session with
  | none => cases r.msg <;> rfl
  | some s =>
    cases r.msg with
    | none => rfl
    | some m =>
      cases h1 : env.isSilent <;> cases h2 : m.Author.Bot <;> cases h3 : isDM m <;>
        cases h4 : env.UserChannelCreate m.Author.ID <;>
        simp [sendReaction, sendMessage, multiSends, h1, h2, h3, h4]

/-- The calls of `MultiSend` in two traces put end to end. -/
theorem multiSends_append (a b : List Effect) :
    multiSends (a ++ b) = multiSends a ++ multiSends b := by
  unfold multiSends
  exact List.filterMap_append _ _ _

/-- A loop whose every round makes no call of `MultiSend` makes none. -/
theorem multiSends_flatMap_nil (f : FaucetReq → List Effect) (rs : List FaucetReq)
    (h : ∀ r, multiSends (f r) = []) : multiSends (rs.flatMap f) = [] := by
  induction rs with
  | nil => rfl
  | cons r rest ih => rw [List.flatMap_cons, multiSends_append, h r, ih]; rfl

/-- One flush calls `MultiSend` exactly once, with the three sequences built from
the batch. -/
theorem multiSends_processRequests (env : Env) (result : Option Error) (rs : List FaucetReq) :
    multiSends (processRequests env result rs) = [batchArgs rs] := by
  unfold processRequests
  cases result with
  | none =>
    have h := multiSends_flatMap_nil (reportSuccess env) rs (multiSends_reportSuccess env)
    simp only [multiSends] at h ⊢
    simp [h]
  | some err =>
    have h := multiSends_flatMap_nil (fun r => reportError env r.session r.msg err) rs
      (fun r => multiSends_reportError env r.session r.msg err)
    simp only [multiSends] at h ⊢
    simp [h]

/-- The loop of `Consume` over two runs of events put end to end. -/
theorem Consume.run_append (env : Env) (w : Worker) (a b : List Event) :
    Consume.run env w (a ++ b) = Consume.run env (Consume.run env w a) b := by
  unfold Consume.run
  exact List.foldl_append _ _ _ _

/-- Requests that keep the window at 160 or fewer are appended to it and nothing
else happens. -/
theorem Consume.run_requests_below (env : Env) (reqs : List FaucetReq) :
    ∀ w : Worker, w.exited = false → w.rs.length + reqs.length ≤ 160 →
      Consume.run env w (reqs.map Event.request) = { w with rs := w.rs ++ reqs } := by
  induction reqs with
  | nil => intro w _ _; simp [Consume.run]
  | cons r rest ih =>
    intro w hw hlen
    simp only [List.length_cons] at hlen
    have hstep : Consume.step env w (Event.request r) = { w with rs := w.rs ++ [r] } := by
      unfold Consume.step
      have : ¬ (w.rs ++ [r]).length > 160 := by simp; omega
      simp only [this, if_false]
    have hfrom : Consume.run env w ((r :: rest).map Event.request) =
        Consume.run env (Consume.step env w (Event.request r)) (rest.map Event.request) := by
      simp [Consume.run, hw]
    rw [hfrom, hstep, ih { w with rs := w.rs ++ [r] } hw (by simp; omega)]
    simp

/-- Claim C3. Starting from an empty window, a worker that receives 161 requests and
no tick in between flushes exactly once, with all 161 requests in arrival order,
makes exactly one call of `MultiSend`, and is left with an empty window; after each
of the first 160 arrivals nothing has been flushed and the window holds the
requests received so far. -/
theorem size_trigger_flush (env : Env) (reqs : List FaucetReq) (h : reqs.length = 161) :
    (Consume env (reqs.map Event.request)).flushed = [reqs] ∧
    (Consume env (reqs.map Event.request)).rs = [] ∧
    multiSends (Consume env (reqs.map Event.request)).trace = [batchArgs reqs] ∧
    ∀ k, k ≤ 160 →
      (Consume env ((reqs.take k).map Event.request)).flushed = [] ∧
      (Consume env ((reqs.take k).map Event.request)).rs = reqs.take k ∧
      (Consume env ((reqs.take k).map Event.request)).trace = [] := by
  have hbelow : ∀ k, k ≤ 160 →
      Consume env ((reqs.take k).map Event.request) =
        { rs := reqs.take k, flushed := [], trace := [], exited := false } := by
    intro k hk
    unfold Consume
    rw [Consume.run_requests_below env (reqs.take k) Worker.start rfl
      (by simp [Worker.start]; omega)]
    simp [Worker.start]
  have hsplit : reqs = reqs.take 160 ++ reqs.drop 160 := (List.take_append_drop 160 reqs).symm
  obtain ⟨last, hlast⟩ : ∃ last, reqs.drop 160 = [last] := by
    have hl : (reqs.drop 160).length = 1 := by simp [h]
    match hd : reqs.drop 160, hl with
    | [x], _ => exact ⟨x, rfl⟩
  have hfull : reqs.take 160 ++ [last] = reqs := by rw [← hlast]; exact hsplit.symm
  have hall : Consume env (reqs.map Event.request) =
      Consume.step env { rs := reqs.take 160, flushed := [], trace := [], exited := false }
        (Event.request last) := by
    have h1 : reqs.map Event.request =
        (reqs.take 160).map Event.request ++ [Event.request last] := by
      conv_lhs => rw [← hfull]
      simp
    have h160 := hbelow 160 (le_refl _)
    unfold Consume at h160 ⊢
    rw [h1, Consume.run_append, h160]
    simp [Consume.run]
  have hstep : Consume.step env
      { rs := reqs.take 160, flushed := [], trace := [], exited := false } (Event.request last)
      = { rs := [], flushed := [reqs],
          trace := processRequests env (env.MultiSend 0) reqs ++ [Effect.tickerReset],
          exited := false } := by
    have : (reqs.take 160 ++ [last]).length > 160 := by rw [hfull, h]; decide
    simp only [Consume.step]
    rw [if_pos this, hfull]
    simp [Worker.flush]
  refine ⟨?_, ?_, ?_, ?_⟩
  · rw [hall, hstep]
  · rw [hall, hstep]
  · rw [hall, hstep]
    simp only [multiSends_append, multiSends_processRequests]
    rfl
  · intro k hk
    rw [hbelow k hk]
    exact ⟨rfl, rfl, rfl⟩

/-- Witness for claim C3: 161 copies of the sample request are flushed as one batch,
leaving the window empty. -/
theorem size_trigger_flush_witness :
    (Consume (sampleEnv 0) ((List.replicate 161 sampleReq).map Event.request)).flushed =
      [List.replicate 161 sampleReq] ∧
    (Consume (sampleEnv 0) ((List.replicate 161 sampleReq).map Event.request)).rs = [] :=
  have h := size_trigger_flush (sampleEnv 0) (List.replicate 161 sampleReq)
    (List.length_replicate 161 sampleReq)
  ⟨h.1, h.2.1⟩

/-- Claim C4. On a tick, a worker whose window holds at least one request makes
exactly one flush, of exactly the requests in the window, calls `MultiSend` exactly
once, and is left with an empty window; a worker whose window is empty does
nothing at all. -/
theorem tick_flush (env : Env) (w : Worker) :
    (w.rs ≠ [] →
      (Consume.step env w Event.tick).flushed = w.flushed ++ [w.rs] ∧
      (Consume.step env w Event.tick).rs = [] ∧
      multiSends (Consume.step env w Event.tick).trace =
        multiSends w.trace ++ [batchArgs w.rs]) ∧
    (w.rs = [] → Consume.step env w Event.tick = w) := by
  constructor
  · intro h
    have hpos : w.rs.length > 0 := List.length_pos.mpr h
    simp only [Consume.step]
    rw [if_pos hpos]
    simp [Worker.flush, multiSends_append, multiSends_processRequests]
  · intro h
    simp [Consume.step, h]

/-- Witness for claim C4: a tick on a window holding the single sample request
flushes that request, and a tick on an empty window changes nothing. -/
theorem tick_flush_witness :
    (Consume.step (sampleEnv 0) { Worker.start with rs := [sampleReq] } Event.tick).flushed =
      [[sampleReq]] ∧
    (Consume.step (sampleEnv 0) { Worker.start with rs := [sampleReq] } Event.tick).rs = [] ∧
    Consume.step (sampleEnv 0) Worker.start Event.tick = Worker.start :=
  have h := (tick_flush (sampleEnv 0) { Worker.start with rs := [sampleReq] }).1 (by decide)
  ⟨h.1, h.2.1, (tick_flush (sampleEnv 0) Worker.start).2 rfl⟩

/-- One event received by a worker that has not exited, followed by more events. -/
theorem Consume.run_cons (env : Env) (w : Worker) (e : Event) (events : List Event)
    (hw : w.exited = false) :
    Consume.run env w (e :: events) = Consume.run env (Consume.step env w e) events := by
  simp [Consume.run, hw]

/-- A request or a tick does not end the worker. -/
theorem Consume.step_exited (env : Env) (w : Worker) (e : Event) (he : e ≠ Event.quit) :
    (Consume.step env w e).exited = w.exited := by
  cases e with
  | request r =>
    simp only [Consume.step]
    split <;> rfl
  | tick =>
    simp only [Consume.step]
    split <;> rfl
  | quit => exact absurd rfl he

/-- A request or a tick keeps every request, once, in arrival order: the batches
flushed, followed by the window, grow by exactly the request that arrived. -/
theorem Consume.step_conserves (env : Env) (w : Worker) (e : Event) (he : e ≠ Event.quit) :
    (Consume.step env w e).flushed.flatten ++ (Consume.step env w e).rs =
      w.flushed.flatten ++ w.rs ++ arrivals [e] := by
  cases e with
  | request r =>
    simp only [Consume.step]
    split <;> simp [Worker.flush, arrivals]
  | tick =>
    simp only [Consume.step]
    split <;> simp [Worker.flush, arrivals]
  | quit => exact absurd rfl he

/-- The requests arriving in two runs of events put end to end. -/
theorem arrivals_cons (e : Event) (events : List Event) :
    arrivals (e :: events) = arrivals [e] ++ arrivals events := by
  unfold arrivals
  rw [← List.filterMap_append]
  rfl

/-- Conservation of requests over a run of requests and ticks, from any worker that
has not exited. -/
theorem Consume.run_conserves (env : Env) (events : List Event) :
    ∀ w : Worker, w.exited = false → (∀ e ∈ events, e ≠ Event.quit) →
      (Consume.run env w events).flushed.flatten ++ (Consume.run env w events).rs =
        w.flushed.flatten ++ w.rs ++ arrivals events := by
  induction events with
  | nil => intro w _ _; simp [Consume.run, arrivals]
  | cons e rest ih =>
    intro w hw hq
    have he : e ≠ Event.quit := hq e (List.mem_cons_self _ _)
    rw [Consume.run_cons env w e rest hw,
      ih (Consume.step env w e) (by rw [Consume.step_exited env w e he]; exact hw)
        (fun x hx => hq x (List.mem_cons_of_mem _ hx)),
      Consume.step_conserves env w e he, arrivals_cons e rest]
    simp

/-- Claim C7. For every sequence of request arrivals and ticks received by a worker
that starts with an empty window, and whatever `MultiSend` returns at each call, the
batches flushed so far, in flush order, followed by the pending window, are exactly
the requests that arrived, in arrival order. -/
theorem requests_conserved (env : Env) (events : List Event)
    (h : ∀ e ∈ events, e ≠ Event.quit) :
    (Consume env events).flushed.flatten ++ (Consume env events).rs = arrivals events := by
  unfold Consume
  rw [Consume.run_conserves env events Worker.start rfl h]
  simp [Worker.start]

/-- Witness for claim C7: two requests, a tick and a third request, with a
`MultiSend` that fails. -/
theorem requests_conserved_witness :
    (Consume { sampleEnv 0 with MultiSend := fun _ => some (Error.ext "out of gas") }
        [Event.request sampleReq, Event.request sampleChatReq, Event.tick,
         Event.request sampleReq]).flushed.flatten ++
      (Consume { sampleEnv 0 with MultiSend := fun _ => some (Error.ext "out of gas") }
        [Event.request sampleReq, Event.request sampleChatReq, Event.tick,
         Event.request sampleReq]).rs =
      [sampleReq, sampleChatReq, sampleReq] :=
  requests_conserved { sampleEnv 0 with MultiSend := fun _ => some (Error.ext "out of gas") }
    [Event.request sampleReq, Event.request sampleChatReq, Event.tick, Event.request sampleReq]
    (by decide)

/-- Claim C8. A worker that has not exited and receives the shutdown signal makes
exactly one flush, of exactly the requests in its window, when the window is not
empty, and no flush when it is empty; it then ends with `log.Fatal`, and whatever is
sent to it afterwards is not received. -/
theorem shutdown_drain (env : Env) (w : Worker) (later : List Event)
    (hw : w.exited = false) :
    (Consume.run env w (Event.quit :: later)).exited = true ∧
    Consume.run env w (Event.quit :: later) = Consume.run env w [Event.quit] ∧
    (w.rs ≠ [] →
      (Consume.run env w (Event.quit :: later)).flushed = w.flushed ++ [w.rs] ∧
      (Consume.run env w (Event.quit :: later)).trace =
        w.trace ++ processRequests env (env.MultiSend w.flushed.length) w.rs ++
          [Effect.logFatal] ∧
      multiSends (Consume.run env w (Event.quit :: later)).trace =
        multiSends w.trace ++ [batchArgs w.rs]) ∧
    (w.rs = [] →
      (Consume.run env w (Event.quit :: later)).flushed = w.flushed ∧
      (Consume.run env w (Event.quit :: later)).trace = w.trace ++ [Effect.logFatal]) := by
  have hexit : (Consume.step env w Event.quit).exited = true := by simp [Consume.step]
  have hstop : ∀ (w1 : Worker) (events : List Event), w1.exited = true →
      Consume.run env w1 events = w1 := by
    intro w1 events h1
    induction events with
    | nil => rfl
    | cons e rest ih =>
      have : Consume.run env w1 (e :: rest) = Consume.run env w1 rest := by
        simp [Consume.run, h1]
      rw [this, ih]
  have hrun : Consume.run env w (Event.quit :: later) = Consume.step env w Event.quit := by
    rw [Consume.run_cons env w _ _ hw, hstop _ _ hexit]
  have hone : Consume.run env w [Event.quit] = Consume.step env w Event.quit := by
    rw [Consume.run_cons env w _ _ hw]; rfl
  rw [hrun, hone]
  refine ⟨hexit, rfl, ?_, ?_⟩
  · intro h
    have hpos : w.rs.length > 0 := List.length_pos.mpr h
    simp only [Consume.step]
    rw [if_pos hpos]
    have hfatal : multiSends [Effect.logFatal] = [] := rfl
    simp [Worker.flush, multiSends_append, multiSends_processRequests, hfatal]
  · intro h
    simp [Consume.step, h]

/-- Witness for claim C8: a worker holding two requests is shut down, and a request
sent afterwards is not received. -/
theorem shutdown_drain_witness :
    (Consume.run (sampleEnv 0) { Worker.start with rs := [sampleReq, sampleChatReq] }
        [Event.quit, Event.request sampleReq]).exited = true ∧
    (Consume.run (sampleEnv 0) { Worker.start with rs := [sampleReq, sampleChatReq] }
        [Event.quit, Event.request sampleReq]).flushed = [[sampleReq, sampleChatReq]] :=
  have h := shutdown_drain (sampleEnv 0) { Worker.start with rs := [sampleReq, sampleChatReq] }
    [Event.request sampleReq] rfl
  ⟨h.1, (h.2.2.1 (by decide)).1⟩

/-! ## The combined fee -/

/-- Amount of a denomination in a coin set with one more coin in front. -/
theorem amountOf_cons (c : Coin) (cs : Coins) (d : String) :
    amountOf (c :: cs) d = (if c.Denom = d then c.Amount else 0) + amountOf cs d := by
  unfold amountOf
  by_cases h : c.Denom = d <;> simp [List.filter_cons, h]

/-- Leaving out the coins of amount zero changes no amount. -/
theorem amountOf_removeZeroCoins (cs : Coins) (d : String) :
    amountOf (removeZeroCoins cs) d = amountOf cs d := by
  induction cs with
  | nil => rfl
  | cons c rest ih =>
    simp only [removeZeroCoins, Coin.IsZero] at ih ⊢
    by_cases hz : c.Amount = 0
    · simp [List.filter_cons, hz, amountOf_cons, ih]
    · simp [List.filter_cons, hz, amountOf_cons, ih]

/-- Two strings that `strings.Compare` finds equal are equal. -/
theorem stringsCompare_eq (a b : String) (h : stringsCompare a b = Ordering.eq) : a = b := by
  unfold stringsCompare at h
  split_ifs at h with h1 h2
  exact h2

/-- The inner loop of `safeAdd` adds amounts, provided its continuation does. -/
theorem amountOf_safeAddFrom (coinA : Coin) (restA : Coins) (next : Coins → Coins)
    (d : String) (hnext : ∀ b, amountOf (next b) d = amountOf restA d + amountOf b d)
    (coinsB : Coins) :
    amountOf (safeAddFrom coinA restA next coinsB) d =
      amountOf (coinA :: restA) d + amountOf coinsB d := by
  induction coinsB with
  | nil =>
    simp only [safeAddFrom]
    rw [amountOf_removeZeroCoins]
    simp [amountOf]
  | cons coinB restB ih =>
    simp only [safeAddFrom]
    cases hc : stringsCompare coinA.Denom coinB.Denom with
    | lt =>
      simp only
      by_cases hz : coinA.Amount = 0
      · simp [Coin.IsZero, hz, hnext, amountOf_cons]
      · simp [Coin.IsZero, hz, hnext, amountOf_cons]
        ring
    | eq =>
      have hd := stringsCompare_eq _ _ hc
      simp only
      split
      · rename_i hz
        have hz' : coinA.Amount + coinB.Amount = 0 := by simpa [Coin.IsZero] using hz
        simp only [hnext, amountOf_cons, ← hd]
        split <;> omega
      · simp only [hnext, amountOf_cons, ← hd]
        split <;> omega
    | gt =>
      simp only
      by_cases hz : coinB.Amount = 0
      · simp [Coin.IsZero, hz, ih, amountOf_cons]
      · simp [Coin.IsZero, hz, ih, amountOf_cons]
        ring

/-- The coin library's `Coins.Add` adds the amounts of every denomination. -/
theorem amountOf_safeAdd (coinsA coinsB : Coins) (d : String) :
    amountOf (safeAdd coinsA coinsB) d = amountOf coinsA d + amountOf coinsB d := by
  induction coinsA generalizing coinsB with
  | nil =>
    simp only [safeAdd]
    rw [amountOf_removeZeroCoins]
    simp [amountOf]
  | cons coinA restA ih =>
    simp only [safeAdd]
    exact amountOf_safeAddFrom coinA restA (safeAdd restA) d (fun b => ih b) coinsB

/-- The three sequences of `batchArgs` after a loop started from given sequences. -/
theorem batchArgs_foldl (rs : List FaucetReq) :
    ∀ acc : List AccAddress × List Coins × Coins,
      rs.foldl
        (fun acc r => (acc.1 ++ [r.Recipient], acc.2.1 ++ [r.Coins], safeAdd acc.2.2 r.Fees))
        acc =
      (acc.1 ++ rs.map FaucetReq.Recipient, acc.2.1 ++ rs.map FaucetReq.Coins,
        rs.foldl (fun fees r => safeAdd fees r.Fees) acc.2.2) := by
  induction rs with
  | nil => intro acc; simp
  | cons r rest ih => intro acc; simp [ih]

/-- The destinations and amounts built by `processRequests` are those of the
requests, in order. -/
theorem batchArgs_eq (rs : List FaucetReq) :
    batchArgs rs =
      (rs.map FaucetReq.Recipient, rs.map FaucetReq.Coins,
        rs.foldl (fun fees r => safeAdd fees r.Fees) []) := by
  unfold batchArgs
  rw [batchArgs_foldl]
  simp

/-- Amount of a denomination in the fee accumulated by the loop of `processRequests`. -/
theorem amountOf_fees_foldl (rs : List FaucetReq) (d : String) :
    ∀ fees : Coins,
      amountOf (rs.foldl (fun fees r => safeAdd fees r.Fees) fees) d =
        amountOf fees d + (rs.map (fun r => amountOf r.Fees d)).sum := by
  induction rs with
  | nil => intro fees; simp
  | cons r rest ih =>
    intro fees
    simp only [List.foldl_cons, List.map_cons, List.sum_cons]
    rw [ih, amountOf_safeAdd]
    ring

/-- Claim C5. The fee `processRequests` passes to `MultiSend`, in its only call, holds
of every denomination the sum of what the fees of the requests of the batch hold of
it; so it is the same for every order of the requests, it is `n` times `f` when all
`n` requests carry the fee `f`, and three requests with fees 1, 2 and 3 of one
denomination give the fee 6 of that denomination. -/
theorem combined_fee_is_sum (env : Env) (result : Option Error) (rs : List FaucetReq) :
    multiSends (processRequests env result rs) = [batchArgs rs] ∧
    (∀ d, amountOf (batchArgs rs).2.2 d = (rs.map (fun r => amountOf r.Fees d)).sum) ∧
    (∀ rs' : List FaucetReq, rs.Perm rs' →
      ∀ d, amountOf (batchArgs rs').2.2 d = amountOf (batchArgs rs).2.2 d) ∧
    (∀ f : Coins, (∀ r ∈ rs, r.Fees = f) →
      ∀ d, amountOf (batchArgs rs).2.2 d = (rs.length : Int) * amountOf f d) ∧
    (∀ (denom : String) (r1 r2 r3 : FaucetReq),
      r1.Fees = [{ Denom := denom, Amount := 1 }] →
      r2.Fees = [{ Denom := denom, Amount := 2 }] →
      r3.Fees = [{ Denom := denom, Amount := 3 }] →
      (batchArgs [r1, r2, r3]).2.2 = [{ Denom := denom, Amount := 6 }]) := by
  have hsum : ∀ (l : List FaucetReq) d,
      amountOf (batchArgs l).2.2 d = (l.map (fun r => amountOf r.Fees d)).sum := by
    intro l d
    rw [batchArgs_eq]
    simp only
    rw [amountOf_fees_foldl]
    simp [amountOf]
  refine ⟨multiSends_processRequests env result rs, hsum rs, ?_, ?_, ?_⟩
  · intro rs' hperm d
    rw [hsum, hsum]
    exact ((hperm.map _).sum_eq).symm
  · intro f hf d
    rw [hsum]
    have : rs.map (fun r => amountOf r.Fees d) = List.replicate rs.length (amountOf f d) := by
      apply List.eq_replicate_iff.mpr
      refine ⟨by simp, ?_⟩
      intro b hb
      obtain ⟨r, hr, rfl⟩ := List.mem_map.mp hb
      rw [hf r hr]
    rw [this]
    simp
  · intro denom r1 r2 r3 h1 h2 h3
    rw [batchArgs_eq]
    have hcmp : stringsCompare denom denom = Ordering.eq := by
      unfold stringsCompare
      simp
    simp [h1, h2, h3, safeAdd, safeAddFrom, removeZeroCoins, Coin.IsZero, hcmp]

/-- Witness for claim C5: a batch of the two sample requests, each with the fee
`20uumee`, and the same batch in the other order. -/
theorem combined_fee_is_sum_witness :
    amountOf (batchArgs [sampleChatReq, sampleReq]).2.2 "uumee" =
      amountOf (batchArgs [sampleReq, sampleChatReq]).2.2 "uumee" ∧
    amountOf (batchArgs [sampleReq, sampleChatReq]).2.2 "uumee" = 2 * 20 ∧
    (batchArgs [{ sampleReq with Fees := [{ Denom := "uumee", Amount := 1 }] },
        { sampleReq with Fees := [{ Denom := "uumee", Amount := 2 }] },
        { sampleReq with Fees := [{ Denom := "uumee", Amount := 3 }] }]).2.2 =
      [{ Denom := "uumee", Amount := 6 }] :=
  have h := combined_fee_is_sum (sampleEnv 0) none [sampleReq, sampleChatReq]
  ⟨h.2.2.1 [sampleChatReq, sampleReq] (List.Perm.swap _ _ _) "uumee",
   h.2.2.2.1 [{ Denom := "uumee", Amount := 20 }] (by decide) "uumee",
   h.2.2.2.2 "uumee" _ _ _ rfl rfl rfl⟩

/-! ## The outcome of a batch -/

/-- A request that carries no Discord session or message, or whose message was
written by a bot, is sent nothing, whether the batch failed or succeeded. -/
theorem no_report_without_sink (env : Env) (r : FaucetReq)
    (h : r.session = none ∨ r.msg = none ∨ ∃ m, r.msg = some m ∧ m.Author.Bot = true) :
    (∀ err, reportError env r.session r.msg err = []) ∧ reportSuccess env r = [] := by
  unfold reportSuccess
  rcases h with h | h | ⟨m, hm, hb⟩
  · rw [h]; exact ⟨fun _ => rfl, rfl⟩
  · rw [h]; cases r.session <;> exact ⟨fun _ => rfl, rfl⟩
  · rw [hm]
    cases r.session with
    | none => exact ⟨fun _ => rfl, rfl⟩
    | some s => simp [reportError, sendReaction, sendMessage, hb]

/-- On a failed batch, `reportError` makes for a request exactly the calls the
description of the outcome gives. -/
theorem reportError_eq_expectedNotice (env : Env) (r : FaucetReq) (err : Error) :
    reportError env r.session r.msg err = expectedNotice env (some err) r := by
  unfold expectedNotice
  cases r.session with
  | none => cases r.msg <;> rfl
  | some s =>
    cases r.msg with
    | none => rfl
    | some m =>
      cases h1 : env.isSilent <;> cases h2 : m.Author.Bot <;>
        simp [reportError, sendReaction, h1, h2]

/-- On a successful batch, `processRequests` makes for a request exactly the calls
the description of the outcome gives. -/
theorem reportSuccess_eq_expectedNotice (env : Env) (r : FaucetReq) :
    reportSuccess env r = expectedNotice env none r := by
  unfold expectedNotice reportSuccess
  cases r.session with
  | none => cases r.msg <;> rfl
  | some s =>
    cases r.msg with
    | none => rfl
    | some m =>
      cases h1 : env.isSilent <;> cases h2 : m.Author.Bot <;>
        cases h4 : env.UserChannelCreate m.Author.ID <;>
        by_cases h3 : m.GuildID = "" <;>
        simp [sendReaction, sendMessage, isDM, h1, h2, h3, h4]

/-- The calls of one flush: the call of `MultiSend`, then for each request of the
batch, in order, the calls the description of the outcome gives. -/
theorem processRequests_eq (env : Env) (result : Option Error) (rs : List FaucetReq) :
    processRequests env result rs =
      Effect.MultiSend (rs.map FaucetReq.Recipient) (rs.map FaucetReq.Coins)
          (batchArgs rs).2.2 ::
        rs.flatMap (expectedNotice env result) := by
  unfold processRequests
  rw [batchArgs_eq]
  cases result with
  | none =>
    simp only
    congr 1
    exact congrArg (fun f => rs.flatMap f) (funext (reportSuccess_eq_expectedNotice env))
  | some err =>
    simp only
    congr 1
    exact congrArg (fun f => rs.flatMap f)
      (funext (fun r => reportError_eq_expectedNotice env r err))

/-- Where a call made for one request of a batch comes from: the request carries a
session and a message whose author is not a bot, and the call is one of those the
outcome allows. -/
theorem mem_expectedNotice (env : Env) (result : Option Error) (r : FaucetReq) (e : Effect)
    (h : e ∈ expectedNotice env result r) :
    ∃ s m, r.session = some s ∧ r.msg = some m ∧ m.Author.Bot = false ∧
      ((∃ err, result = some err ∧
          ((env.isSilent = false ∧ e = Effect.MessageReactionAdd m.ChannelID m.ID "❌") ∨
            e = Effect.ChannelMessageSendReply m.ChannelID
              (Text.requestError m.Author.ID err) m.ID)) ∨
       (result = none ∧
          ((env.isSilent = false ∧ e = Effect.MessageReactionAdd m.ChannelID m.ID "✅") ∨
           ((env.isSilent = false ∨ m.GuildID = "") ∧
              e = Effect.UserChannelCreate m.Author.ID) ∨
           (∃ channel, (env.isSilent = false ∨ m.GuildID = "") ∧
              env.UserChannelCreate m.Author.ID = Except.ok channel ∧
              e = Effect.ChannelMessageSend channel (Text.dispensed r.Coins r.Recipient))))) := by
  unfold expectedNotice at h
  cases hs : r.session with
  | none => rw [hs] at h; cases r.msg <;> simp at h
  | some s =>
    cases hm : r.msg with
    | none => rw [hs, hm] at h; simp at h
    | some m =>
      rw [hs, hm] at h
      refine ⟨s, m, rfl, rfl, ?_⟩
      cases hb : m.Author.Bot with
      | true => simp [hb] at h
      | false =>
        refine ⟨rfl, ?_⟩
        cases result with
        | some err =>
          left
          refine ⟨err, rfl, ?_⟩
          cases hsil : env.isSilent <;> simp [hb, hsil] at h
          · rcases h with h | h
            · exact Or.inl ⟨rfl, h⟩
            · exact Or.inr h
          · exact Or.inr h
        | none =>
          right
          refine ⟨rfl, ?_⟩
          cases hsil : env.isSilent <;> cases hch : env.UserChannelCreate m.Author.ID <;>
            by_cases hg : m.GuildID = "" <;> simp [hb, hsil, hch, hg] at h ⊢
          all_goals exact h

/-- Claim C6, as the code has it. One flush calls `MultiSend` exactly once, with the
destinations and the amounts of the batch in the order of the batch, and apart from
that call it makes, request after request in the order of the batch, exactly the
calls of `expectedNotice`. So a request that carries no session or no message, or
whose message was written by a bot, is sent nothing, whatever else the batch holds;
every other request is sent, when the call fails, a reply with that failure, and
when it succeeds a direct message with its own destination and amount, provided the
faucet is not silent or the message was a direct one, and the direct-message channel
opens; and every call made besides `MultiSend` is made for such a request of the
batch: on a failure a reaction or a reply with that failure, on a success a reaction,
the opening of the direct-message channel or the direct message. -/
theorem batch_outcome (env : Env) (result : Option Error) (rs : List FaucetReq) :
    multiSends (processRequests env result rs) =
      [(rs.map FaucetReq.Recipient, rs.map FaucetReq.Coins, (batchArgs rs).2.2)] ∧
    processRequests env result rs =
      Effect.MultiSend (rs.map FaucetReq.Recipient) (rs.map FaucetReq.Coins)
          (batchArgs rs).2.2 ::
        rs.flatMap (expectedNotice env result) ∧
    (∀ r : FaucetReq,
      (r.session = none ∨ r.msg = none ∨ ∃ m, r.msg = some m ∧ m.Author.Bot = true) →
      expectedNotice env result r = []) ∧
    (∀ err, result = some err → ∀ r ∈ rs, ∀ s m, r.session = some s → r.msg = some m →
      m.Author.Bot = false →
      Effect.ChannelMessageSendReply m.ChannelID (Text.requestError m.Author.ID err) m.ID ∈
        processRequests env result rs) ∧
    (∀ err, result = some err → ∀ channelID text messageID,
      Effect.ChannelMessageSendReply channelID text messageID ∈ processRequests env result rs →
      ∃ author, text = Text.requestError author err) ∧
    (result = none → ∀ r ∈ rs, ∀ s m channel, r.session = some s → r.msg = some m →
      m.Author.Bot = false → (env.isSilent = false ∨ m.GuildID = "") →
      env.UserChannelCreate m.Author.ID = Except.ok channel →
      Effect.ChannelMessageSend channel (Text.dispensed r.Coins r.Recipient) ∈
        processRequests env result rs) ∧
    ((∀ r ∈ rs, r.session = none ∨ r.msg = none ∨
        ∃ m, r.msg = some m ∧ m.Author.Bot = true) →
      processRequests env result rs =
        [Effect.MultiSend (rs.map FaucetReq.Recipient) (rs.map FaucetReq.Coins)
          (batchArgs rs).2.2]) ∧
    (∀ e ∈ processRequests env result rs,
      e = Effect.MultiSend (rs.map FaucetReq.Recipient) (rs.map FaucetReq.Coins)
          (batchArgs rs).2.2 ∨
      ∃ r ∈ rs, ∃ s m, r.session = some s ∧ r.msg = some m ∧ m.Author.Bot = false ∧
        ((∃ err, result = some err ∧
            ((env.isSilent = false ∧ e = Effect.MessageReactionAdd m.ChannelID m.ID "❌") ∨
              e = Effect.ChannelMessageSendReply m.ChannelID
                (Text.requestError m.Author.ID err) m.ID)) ∨
         (result = none ∧
            ((env.isSilent = false ∧ e = Effect.MessageReactionAdd m.ChannelID m.ID "✅") ∨
             ((env.isSilent = false ∨ m.GuildID = "") ∧
                e = Effect.UserChannelCreate m.Author.ID) ∨
             (∃ channel, (env.isSilent = false ∨ m.GuildID = "") ∧
                env.UserChannelCreate m.Author.ID = Except.ok channel ∧
                e = Effect.ChannelMessageSend channel
                  (Text.dispensed r.Coins r.Recipient)))))) := by
  refine ⟨?_, processRequests_eq env result rs, ?_, ?_, ?_, ?_, ?_, ?_⟩
  · rw [multiSends_processRequests]
    conv_lhs => rw [batchArgs_eq]
    rw [batchArgs_eq]
  · intro r h
    cases result with
    | none =>
      rw [← reportSuccess_eq_expectedNotice]
      exact (no_report_without_sink env r h).2
    | some err =>
      rw [← reportError_eq_expectedNotice]
      exact (no_report_without_sink env r h).1 err
  · intro err hres r hr s m hs hm hb
    subst hres
    unfold processRequests
    apply List.mem_cons_of_mem
    apply List.mem_flatMap.mpr
    refine ⟨r, hr, ?_⟩
    rw [hs, hm]
    simp [reportError, hb]
  · intro err hres channelID text messageID hmem
    subst hres
    rw [processRequests_eq] at hmem
    simp only [List.mem_cons, List.mem_flatMap] at hmem
    rcases hmem with hmem | ⟨r, _, hmem⟩
    · cases hmem
    · obtain ⟨s, m, _, _, _, h⟩ := mem_expectedNotice env (some err) r _ hmem
      rcases h with ⟨err', herr, h⟩ | ⟨hnone, _⟩
      · cases herr
        rcases h with ⟨_, h⟩ | h
        · cases h
        · cases h
          exact ⟨m.Author.ID, rfl⟩
      · cases hnone
  · intro hres r hr s m channel hs hm hb hsil hch
    subst hres
    unfold processRequests
    apply List.mem_cons_of_mem
    apply List.mem_flatMap.mpr
    refine ⟨r, hr, ?_⟩
    unfold reportSuccess
    rw [hs, hm]
    apply List.mem_append_right
    have hcond : (m.Author.Bot || env.isSilent && !isDM m) = false := by
      rcases hsil with hsil | hsil
      · simp [hb, hsil]
      · simp [hb, isDM, hsil]
    simp [sendMessage, hcond, hch]
  · intro hall
    have hnil : ∀ (f : FaucetReq → List Effect), (∀ r ∈ rs, f r = []) → rs.flatMap f = [] := by
      intro f hf
      simp only [List.flatMap_eq_nil_iff]
      exact hf
    unfold processRequests
    rw [batchArgs_eq]
    cases result with
    | none =>
      simp only
      rw [hnil _ (fun r hr => (no_report_without_sink env r (hall r hr)).2)]
    | some err =>
      simp only
      rw [hnil _ (fun r hr => (no_report_without_sink env r (hall r hr)).1 err)]
  · intro e hmem
    rw [processRequests_eq] at hmem
    simp only [List.mem_cons, List.mem_flatMap] at hmem
    rcases hmem with hmem | ⟨r, hr, hmem⟩
    · exact Or.inl hmem
    · exact Or.inr ⟨r, hr, mem_expectedNotice env result r e hmem⟩

/-- Witness for claim C6: a failed batch holding the sample Discord request, a
batch holding only the request of a bot, and a failed batch holding both. -/
theorem batch_outcome_witness :
    Effect.ChannelMessageSendReply "c1"
        (Text.requestError "1001" (Error.ext "out of gas")) "m1" ∈
      processRequests (sampleEnv 0) (some (Error.ext "out of gas")) [sampleReq, sampleChatReq] ∧
    processRequests (sampleEnv 0) (some (Error.ext "out of gas")) [sampleBotReq] =
      [Effect.MultiSend ([sampleBotReq].map FaucetReq.Recipient)
        ([sampleBotReq].map FaucetReq.Coins) (batchArgs [sampleBotReq]).2.2] ∧
    expectedNotice (sampleEnv 0) (some (Error.ext "out of gas")) sampleBotReq = [] :=
  ⟨(batch_outcome (sampleEnv 0) (some (Error.ext "out of gas"))
        [sampleReq, sampleChatReq]).2.2.2.1
      (Error.ext "out of gas") rfl sampleChatReq (by decide) sampleSession
      (sampleMessage ("!request " ++ sampleAddr)) rfl rfl rfl,
   (batch_outcome (sampleEnv 0) (some (Error.ext "out of gas")) [sampleBotReq]).2.2.2.2.2.2.1
      (by
        intro r hr
        rw [List.mem_singleton.mp hr]
        exact Or.inr (Or.inr ⟨_, rfl, rfl⟩)),
   (batch_outcome (sampleEnv 0) (some (Error.ext "out of gas"))
        [sampleChatReq, sampleBotReq]).2.2.1 sampleBotReq (Or.inr (Or.inr ⟨_, rfl, rfl⟩))⟩

/-- Counterexample to claim C6 as stated: a request written by another bot carries a
session and a message, yet when the batch it is in fails, and likewise when it
succeeds, the only call made is the one of `MultiSend`: the request is told nothing. -/
theorem bot_request_not_reported :
    sampleBotReq.session ≠ none ∧ sampleBotReq.msg ≠ none ∧
    processRequests (sampleEnv 0) (some (Error.ext "out of gas")) [sampleBotReq] =
      [Effect.MultiSend [List.replicate 20 0] [[{ Denom := "uumee", Amount := 1000 }]]
        [{ Denom := "uumee", Amount := 20 }]] ∧
    processRequests (sampleEnv 0) none [sampleBotReq] =
      [Effect.MultiSend [List.replicate 20 0] [[{ Denom := "uumee", Amount := 1000 }]]
        [{ Denom := "uumee", Amount := 20 }]] := by
  refine ⟨by decide, by decide, by decide, by decide⟩

/-! ## Unsupported chains -/

/-- In `faucetHttp`, an address that decodes to a prefix without a configured chain
ends the handler in a panic, before anything is written to the response. -/
theorem faucetHttp_unsupported (env : Env) (fh : FaucetHandler) (w : World) (r : Request)
    (value p : String)
    (hmethod : ¬(r.Method ≠ "GET" ∧ r.Path ≠ "/"))
    (hwallet : r.wallet = some value)
    (hdecode : env.bech32Decode (TrimSpace value) = Except.ok p)
    (hchain : fh.faucets p = none) :
    faucetHttp env fh w r = (w, Exit.panicked) := by
  unfold faucetHttp
  rw [if_neg hmethod]
  simp only [hwallet, hdecode, hchain]

/-- In `handleDispense`, an address that decodes to a prefix without a configured
chain is answered with the error "chain prefix is not supported" and nothing else. -/
theorem dispenseRequest_unsupported (env : Env) (fh : FaucetHandler) (w : World)
    (s : Session) (m : MessageCreate) (dstAddr p : String)
    (hdecode : env.bech32Decode dstAddr = Except.ok p)
    (hchain : fh.faucets p = none) :
    dispenseRequest env fh w s m dstAddr =
      (w.emit (reportError env (some s) (some m) (Error.notSupported p)), Exit.unsupported) := by
  unfold dispenseRequest
  simp only [hdecode, hchain]

/-- Claim C9 at a failing input. The sample deployment configures `umee` only; on
`GET /?wallet=` with a well-formed `cosmos` address `faucetHttp` panics and reports
nothing to the caller (it makes no call at all), where `handleDispense`, given the
same address, replies that the chain prefix is not supported. -/
theorem unsupported_chain_http_panics :
    (sampleEnv 0).bech32Decode (TrimSpace otherAddr) = Except.ok "cosmos" ∧
    sampleHandler.faucets "cosmos" = none ∧
    (faucetHttp (sampleEnv 0) sampleHandler sampleWorld (sampleRequest otherAddr)).2 =
      Exit.panicked ∧
    (faucetHttp (sampleEnv 0) sampleHandler sampleWorld (sampleRequest otherAddr)).1.trace = [] ∧
    (handleDispense (sampleEnv 0) sampleHandler sampleWorld sampleSession
        (sampleMessage ("!request " ++ otherAddr))).trace =
      [Effect.MessageReactionAdd "c1" "m1" "❌",
       Effect.ChannelMessageSendReply "c1"
        (Text.requestError "1001" (Error.notSupported "cosmos")) "m1"] := by
  refine ⟨rfl, rfl, ?_, ?_, ?_⟩
  · rw [faucetHttp_unsupported (sampleEnv 0) sampleHandler sampleWorld (sampleRequest otherAddr)
      otherAddr "cosmos" (by decide) rfl rfl rfl]
  · rw [faucetHttp_unsupported (sampleEnv 0) sampleHandler sampleWorld (sampleRequest otherAddr)
      otherAddr "cosmos" (by decide) rfl rfl rfl]
    rfl
  · decide

/-! ## The receipt store -/

/-- Saving a receipt leaves alone every lookup whose document key differs from the
key of the receipt saved. -/
theorem save_frame (env : Env) (docs : Docs) (newReceipt : FundingReceipt)
    (username chainPrefix : String)
    (hkey : mkPKEY env username chainPrefix ≠
      mkPKEY env newReceipt.Username newReceipt.ChainPrefix) :
    GetFundingReceiptByUsernameAndChainPrefix env
        (SaveFundingReceipt env docs newReceipt).1 username chainPrefix =
      GetFundingReceiptByUsernameAndChainPrefix env docs username chainPrefix := by
  unfold GetFundingReceiptByUsernameAndChainPrefix SaveFundingReceipt
  by_cases hd : env.isDebug = true
  · simp [hd]
  · simp only [hd, if_false]
    cases env.setFault (mkPKEY env newReceipt.Username newReceipt.ChainPrefix) with
    | some err => rfl
    | none => simp [hkey]

/-- A save that succeeds is what the next lookup of the same pair finds. -/
theorem save_overwrites (env : Env) (docs : Docs) (newReceipt : FundingReceipt)
    (hdebug : env.isDebug = false)
    (hset : env.setFault (mkPKEY env newReceipt.Username newReceipt.ChainPrefix) = none)
    (hget : env.getFault (mkPKEY env newReceipt.Username newReceipt.ChainPrefix) = none) :
    GetFundingReceiptByUsernameAndChainPrefix env
        (SaveFundingReceipt env docs newReceipt).1 newReceipt.Username newReceipt.ChainPrefix =
      Except.ok (some newReceipt) := by
  unfold GetFundingReceiptByUsernameAndChainPrefix SaveFundingReceipt
  simp [hdebug, hset, hget]

/-- Claim C10 at a failing input. Whatever the digest function, with debug mode off
and an empty collection, saving a receipt for the pair (`ab`, `c`) changes what the
lookup of the different pair (`a`, `bc`) returns, from no record to that receipt:
`mkPKEY` hashes the two strings put end to end, which is `abc` for both pairs. -/
theorem distinct_pairs_share_key (getMD5Hash : String → String) (fundedAt : Time)
    (amount : Coins) :
    (("ab", "c") : String × String) ≠ ("a", "bc") ∧
    GetFundingReceiptByUsernameAndChainPrefix
        { sampleEnv 0 with getMD5Hash := getMD5Hash } (fun _ => none) "a" "bc" =
      Except.ok none ∧
    GetFundingReceiptByUsernameAndChainPrefix
        { sampleEnv 0 with getMD5Hash := getMD5Hash }
        (SaveFundingReceipt { sampleEnv 0 with getMD5Hash := getMD5Hash } (fun _ => none)
          { ChainPrefix := "c", Username := "ab", FundedAt := fundedAt, Amount := amount }).1
        "a" "bc" =
      Except.ok (some
        { ChainPrefix := "c", Username := "ab", FundedAt := fundedAt, Amount := amount }) := by
  refine ⟨by decide, rfl, ?_⟩
  have hkey : ("a" ++ "bc" : String) = "ab" ++ "c" := by decide
  simp [GetFundingReceiptByUsernameAndChainPrefix, SaveFundingReceipt, mkPKEY, sampleEnv, hkey]

/-! ## Bounds on the window and on the batches -/

/-- The bounds kept by the loop of `Consume`: at most 160 requests pending, and every
batch flushed so far non-empty with at most 161 requests. -/
theorem Consume.step_bounded (env : Env) (w : Worker) (e : Event)
    (hrs : w.rs.length ≤ 160)
    (hfl : ∀ b ∈ w.flushed, b ≠ [] ∧ b.length ≤ 161) :
    (Consume.step env w e).rs.length ≤ 160 ∧
    ∀ b ∈ (Consume.step env w e).flushed, b ≠ [] ∧ b.length ≤ 161 := by
  cases e with
  | request r =>
    simp only [Consume.step]
    split
    · refine ⟨by simp, ?_⟩
      intro b hb
      simp only [Worker.flush, List.mem_append, List.mem_singleton] at hb
      rcases hb with hb | hb
      · exact hfl b hb
      · subst hb
        refine ⟨by simp, ?_⟩
        simp only [List.length_append, List.length_singleton]
        omega
    · rename_i hle
      refine ⟨?_, hfl⟩
      simp only [gt_iff_lt, not_lt] at hle
      exact hle
  | tick =>
    simp only [Consume.step]
    split
    · rename_i hpos
      refine ⟨by simp, ?_⟩
      intro b hb
      simp only [Worker.flush, List.mem_append, List.mem_singleton] at hb
      rcases hb with hb | hb
      · exact hfl b hb
      · subst hb
        exact ⟨List.length_pos.mp hpos, by omega⟩
    · exact ⟨hrs, hfl⟩
  | quit =>
    simp only [Consume.step]
    split
    · rename_i hpos
      refine ⟨by simpa [Worker.flush] using hrs, ?_⟩
      intro b hb
      simp only [Worker.flush, List.mem_append, List.mem_singleton] at hb
      rcases hb with hb | hb
      · exact hfl b hb
      · subst hb
        exact ⟨List.length_pos.mp hpos, by omega⟩
    · exact ⟨hrs, hfl⟩

/-- The bounds are kept over a run of events from any worker that has them. -/
theorem Consume.run_bounded (env : Env) (events : List Event) :
    ∀ w : Worker, w.rs.length ≤ 160 → (∀ b ∈ w.flushed, b ≠ [] ∧ b.length ≤ 161) →
      (Consume.run env w events).rs.length ≤ 160 ∧
      ∀ b ∈ (Consume.run env w events).flushed, b ≠ [] ∧ b.length ≤ 161 := by
  induction events with
  | nil => intro w hrs hfl; exact ⟨hrs, hfl⟩
  | cons e rest ih =>
    intro w hrs hfl
    cases hx : w.exited with
    | true =>
      have : Consume.run env w (e :: rest) = Consume.run env w rest := by
        simp [Consume.run, hx]
      rw [this]
      exact ih w hrs hfl
    | false =>
      rw [Consume.run_cons env w e rest hx]
      exact ih _ (Consume.step_bounded env w e hrs hfl).1 (Consume.step_bounded env w e hrs hfl).2

/-- Claim C13. For every sequence of events received by a worker that starts with an
empty window, in particular every sequence of request arrivals and ticks, and after
each of its events, the window holds at most 160 requests, and every batch handed
to `processRequests` so far is non-empty and holds at most 161 requests. -/
theorem window_and_batches_bounded (env : Env) (events : List Event) (k : Nat) :
    (Consume env (events.take k)).rs.length ≤ 160 ∧
    ∀ b ∈ (Consume env (events.take k)).flushed, b ≠ [] ∧ b.length ≤ 161 := by
  unfold Consume
  apply Consume.run_bounded
  · simp [Worker.start]
  · intro b hb
    simp [Worker.start] at hb

/-! ## Several commands in one message -/

/-- The loop of `handleDispense` ends at the first `request` command that is not
accepted: the commands after it are not looked at. -/
theorem dispenseLoop_stops (env : Env) (fh : FaucetHandler) (s : Session)
    (m : MessageCreate) (w : World) (args : String) (rest : List (String × String))
    (h : (dispenseRequest env fh w s m (TrimSpace args)).2 ≠ Exit.accepted) :
    dispenseLoop env fh s m w (("request", args) :: rest) =
      (dispenseRequest env fh w s m (TrimSpace args)).1 := by
  have hcmd : TrimSpace "request" = "request" := by decide
  simp only [dispenseLoop, hcmd, if_true]

/-- Claim C11 at a failing input. In the sample deployment a message holds two
commands: a request for a `cosmos` address, which is rejected because the chain is
not configured, and a request for a `umee` address. `handleDispense` reports the
first and returns: the second command is never processed and nothing is handed to
a worker. Sent as two messages in the same order, the second command is accepted
and handed to the worker of `umee`. -/
theorem rejected_command_drops_the_rest :
    FindAllStringSubmatch ("!request " ++ otherAddr ++ "\n!request " ++ sampleAddr) =
      [("request", " " ++ otherAddr), ("request", " " ++ sampleAddr)] ∧
    (handleDispense (sampleEnv 0) sampleHandler freshWorld sampleSession
        (sampleMessage ("!request " ++ otherAddr ++ "\n!request " ++ sampleAddr))).trace =
      [Effect.MessageReactionAdd "c1" "m1" "❌",
       Effect.ChannelMessageSendReply "c1"
        (Text.requestError "1001" (Error.notSupported "cosmos")) "m1"] ∧
    enqueued (handleDispense (sampleEnv 0) sampleHandler freshWorld sampleSession
        (sampleMessage ("!request " ++ otherAddr ++ "\n!request " ++ sampleAddr))).trace = [] ∧
    enqueued (handleDispense (sampleEnv 0) sampleHandler
        (handleDispense (sampleEnv 0) sampleHandler freshWorld sampleSession
          (sampleMessage ("!request " ++ otherAddr)))
        sampleSession (sampleMessage ("!request " ++ sampleAddr))).trace =
      [("umee",
        { Recipient := List.replicate 20 0, Coins := [{ Denom := "uumee", Amount := 1000 }],
          Fees := [{ Denom := "uumee", Amount := 20 }], session := some sampleSession,
          msg := some (sampleMessage ("!request " ++ sampleAddr)) })] := by
  refine ⟨by decide, by decide, by decide, by decide⟩

/-! ## Requests that are not `GET` -/

/-- On the path `/` the method of the request plays no part in `faucetHttp`. -/
theorem faucetHttp_method_unused (env : Env) (fh : FaucetHandler) (w : World) (r : Request)
    (method : String) (h : r.Path = "/") :
    faucetHttp env fh w { r with Method := method } = faucetHttp env fh w r := by
  unfold faucetHttp
  simp [h]

/-- Claim C12 at a failing input. In the sample deployment, `POST /?wallet=` with the
sample address and no earlier receipt is handled like a `GET`: the receipt is looked
up, the request is handed to the worker of `umee`, and a receipt is written. -/
theorem post_request_is_handled :
    (samplePost sampleAddr).Method ≠ "GET" ∧
    (faucetHttp (sampleEnv 0) sampleHandler freshWorld (samplePost sampleAddr)).2 =
      Exit.accepted ∧
    (faucetHttp (sampleEnv 0) sampleHandler freshWorld (samplePost sampleAddr)).1.trace =
      [Effect.docGet (sampleAddr ++ "umee"),
       Effect.channelSend "umee" sampleReq,
       Effect.docSet (sampleAddr ++ "umee") (sampleReceipt sampleAddr),
       Effect.httpSent "umee" sampleAddr] ∧
    (faucetHttp (sampleEnv 0) sampleHandler freshWorld (samplePost sampleAddr)).1.docs
        (sampleAddr ++ "umee") = some (sampleReceipt sampleAddr) := by
  refine ⟨by decide, by decide, by decide, by decide⟩

end Fonzie
